import Mathlib

/-!
# libvirt: the cgroup interface (`src/cgroup.h`) and the VirtualBox storage driver
(`src/vbox/vbox_storage.c`)

The first part models the cgroup subsystem.  Only its header is among the sources, so the
operations are modelled from the design document; every such definition says so.

The second part embeds `vbox_storage.c`.  The VirtualBox API table `gVBoxAPI` and the libvirt
helpers the file calls are not among the sources: their answers are data of the model
(`VBoxWorld`, `IHardDisk`, `IMachine`, ...) and every call made is recorded in a trace.
-/

namespace Cgroup

/-! ## Data model of the cgroup subsystem -/

/-- Modelled from the spec: the controller names of section 3 (`cpu`, `cpuacct`, `memory`,
`devices`, "and optionally others"); the implementation file of `cgroup.h` is missing. -/
inductive Controller where
  | cpu
  | cpuacct
  | memory
  | devices
  | other (name : String)
  deriving DecidableEq, Repr

/-- Modelled from the spec: the error taxonomy of section 7. -/
inductive CgroupError where
  | Unsupported
  | Permission
  | NotFound
  | Busy
  | InvalidArgument
  deriving DecidableEq, Repr

/-- Modelled from the spec: `ControllerMount` of section 3, a controller name paired with its
mount root, with the "flagged non-writable" bit of section 4.1.  A controller that is not
mounted has no entry. -/
structure ControllerMount where
  controller : Controller
  root : String
  writable : Bool
  deriving DecidableEq, Repr

/-- Modelled from the spec: the kernel-exposed files of section 6 (membership file, limit file,
device rule file, share file, usage file). -/
inductive ControlFile where
  | membership
  | memoryLimit
  | deviceRules
  | cpuShares
  | cpuUsage
  deriving DecidableEq, Repr

/-- Modelled from the spec: a device rule of section 4.5.  `minor = none` is the wildcard minor
of `AllowDeviceMajor`; the type is the `char type` of the header. -/
inductive DeviceRule where
  | denyAll
  | allow (type : Char) (major : Int) (minor : Option Int)
  deriving DecidableEq, Repr

/-- Modelled from the spec: what one write puts into a control file, a number (memory limit in
bytes, CPU shares), a process id (section 4.3) or a device rule (section 4.5); the file
formats are not in the header. -/
inductive Value where
  | number (n : Nat)
  | task (pid : Int)
  | device (r : DeviceRule)
  deriving DecidableEq, Repr

/-- Modelled from the spec: one write attempt on a control file, where (the absolute path is
`mount-root + "/" + placement`, section 3), what, and how it ended (`none` is success). -/
structure WriteAttempt where
  root : String
  placement : List String
  file : ControlFile
  value : Value
  outcome : Option CgroupError
  deriving DecidableEq, Repr

/-- Modelled from the spec: the host as the subsystem sees it.  `mounts` is the discovery result
of section 4.1, `dirs` the cgroup directories that exist (mount root, placement), `kernel` the
kernel's verdict on a write (`none` accepts it), `initial` the numeric content of a file nobody
has written yet, and `log` every write attempted so far, oldest first. -/
structure Host where
  mounts : List ControllerMount
  dirs : List (String × List String)
  kernel : String → List String → ControlFile → Value → Option CgroupError
  initial : String → List String → ControlFile → Nat
  log : List WriteAttempt

/-- Modelled from the spec: `CgroupHandle` of section 3 (`struct virCgroup` is only declared in
the header). -/
structure virCgroup where
  mounts : List ControllerMount
  placement : List String
  created : Bool
  deriving DecidableEq, Repr

/-- Modelled from the spec: the lookup in the `mounts` mapping of a handle (section 3), the
mount of controller `c` among `ms` if it is mounted. -/
def findMount (ms : List ControllerMount) (c : Controller) : Option ControllerMount :=
  ms.find? (fun m => decide (m.controller = c))

/-- Modelled from the spec: how a write through mount `m` ends, a permission error on a
non-writable mount (section 4.1), otherwise the kernel's verdict, surfaced as it is
(section 4.4). -/
def writeOutcome (h : Host) (g : virCgroup) (m : ControllerMount) (f : ControlFile) (v : Value) :
    Option CgroupError :=
  if m.writable then h.kernel m.root g.placement f v else some CgroupError.Permission

/-- The log entry of a write through mount `m`. -/
def attemptOf (h : Host) (g : virCgroup) (m : ControllerMount) (f : ControlFile) (v : Value) :
    WriteAttempt :=
  { root := m.root, placement := g.placement, file := f, value := v,
    outcome := writeOutcome h g m f v }

/-- Turns an outcome into a result. -/
def resultOf : Option CgroupError → Except CgroupError Unit
  | none => Except.ok ()
  | some e => Except.error e

/-- Whether a result is a success. -/
def succeeded {α : Type} : Except CgroupError α → Bool
  | Except.ok _ => true
  | Except.error _ => false

/-- Modelled from the spec: one write through a mount the handle has, a single write per
controller file (section 4.3); the attempt is logged with its outcome. -/
def writeMount (h : Host) (g : virCgroup) (m : ControllerMount) (f : ControlFile) (v : Value) :
    Except CgroupError Unit × Host :=
  (resultOf (writeOutcome h g m f v), { h with log := h.log ++ [attemptOf h g m f v] })

/-- Modelled from the spec: a set operation targeting controller `c` (sections 4.4 to 4.6):
an unavailable controller is rejected with `Unsupported` and no write is attempted. -/
def setValue (h : Host) (g : virCgroup) (c : Controller) (f : ControlFile) (v : Value) :
    Except CgroupError Unit × Host :=
  match findMount g.mounts c with
  | none => (Except.error CgroupError.Unsupported, h)
  | some m => writeMount h g m f v

/-- Modelled from the spec: the numbers successfully written to file `f` of the cgroup at
(`root`, `placement`), oldest first. -/
def numbersWritten (log : List WriteAttempt) (root : String) (placement : List String)
    (f : ControlFile) : List Nat :=
  log.filterMap (fun a =>
    if a.root = root ∧ a.placement = placement ∧ a.file = f ∧ a.outcome = none then
      (match a.value with
       | Value.number n => some n
       | _ => none)
    else none)

/-- Modelled from the spec: the numeric content of a file, the last number written or else the
initial content (a read after a write yields the value written, section 8). -/
def readNumber (h : Host) (root : String) (placement : List String) (f : ControlFile) : Nat :=
  ((numbersWritten h.log root placement f).getLast?).getD (h.initial root placement f)

/-- Modelled from the spec: a get operation targeting controller `c` (sections 4.6, 4.7): a pure
read, failing with `Unsupported` when the controller is unavailable. -/
def getValue (h : Host) (g : virCgroup) (c : Controller) (f : ControlFile) :
    Except CgroupError Nat :=
  match findMount g.mounts c with
  | none => Except.error CgroupError.Unsupported
  | some m => Except.ok (readNumber h m.root g.placement f)

/-- Modelled from the spec: the rules successfully written to the device rule file of the
cgroup at (`root`, `placement`), oldest first (rules accumulate in call order, section 3). -/
def rulesWritten (log : List WriteAttempt) (root : String) (placement : List String) :
    List DeviceRule :=
  log.filterMap (fun a =>
    if a.root = root ∧ a.placement = placement ∧ a.file = ControlFile.deviceRules
        ∧ a.outcome = none then
      (match a.value with
       | Value.device r => some r
       | _ => none)
    else none)

/-! ## Handle construction -/

/-- Modelled from the spec: the directories a `create` adds (section 4.2), the placement under
every mount root that is available and writable; a root shared by co-mounted controllers is
created once. -/
def createDirs (dirs : List (String × List String)) (ms : List ControllerMount)
    (placement : List String) : List (String × List String) :=
  ms.foldl (fun ds m =>
    if m.writable ∧ (m.root, placement) ∉ ds then ds ++ [(m.root, placement)] else ds) dirs

/-- Modelled from the spec: create-or-verify of section 4.2.  With `create`, the directory is
made under every available and writable mount root and unavailable controllers are skipped;
without it, a placement that exists under no controller is a `NotFound` error. -/
def resolve (h : Host) (placement : List String) (create : Bool) :
    Except CgroupError virCgroup × Host :=
  if create then
    (Except.ok { mounts := h.mounts, placement := placement, created := true },
     { h with dirs := createDirs h.dirs h.mounts placement })
  else if h.mounts.any (fun m => decide ((m.root, placement) ∈ h.dirs)) then
    (Except.ok { mounts := h.mounts, placement := placement, created := false }, h)
  else
    (Except.error CgroupError.NotFound, h)

/-- Modelled from the spec: driver-level resolution of section 4.2, placement `[driverName]`.
The spec gives `privileged` no effect on the placement. -/
def virCgroupForDriver (h : Host) (name : String) (privileged : Bool) (create : Bool) :
    Except CgroupError virCgroup × Host :=
  let _ := privileged
  resolve h [name] create

/-- Modelled from the spec: domain-level resolution of section 4.2, placement
`driverHandle.placement + [domainName]`. -/
def virCgroupForDomain (h : Host) (driver : virCgroup) (name : String) (create : Bool) :
    Except CgroupError virCgroup × Host :=
  resolve h (driver.placement ++ [name]) create

/-! ## Operations on a handle -/

/-- Modelled from the spec: the loop of `AddTask` (section 4.3) over the mounts the handle
spans; every write is attempted, `first` keeps the first error seen. -/
def addTaskLoop (g : virCgroup) (pid : Int) :
    List ControllerMount → Option CgroupError → Host → Option CgroupError × Host
  | [], first, h => (first, h)
  | m :: ms, first, h =>
    let r := writeMount h g m ControlFile.membership (Value.task pid)
    let first' := match first with
      | some e => some e
      | none => writeOutcome h g m ControlFile.membership (Value.task pid)
    addTaskLoop g pid ms first' r.2

/-- Modelled from the spec: `AddTask` of section 4.3: write the pid into the membership file of
every controller the handle spans, continue after a per-controller failure, collect the first
error and report it at the end. -/
def virCgroupAddTask (h : Host) (g : virCgroup) (pid : Int) : Except CgroupError Unit × Host :=
  let r := addTaskLoop g pid g.mounts none h
  (resultOf r.1, r.2)

/-- Modelled from the spec: `SetMemory` of section 4.4: the limit in kilobytes is converted to
bytes and written to the memory limit file.  (`kb` is an `unsigned long` in the header; the
spec states the conversion without a width.) -/
def virCgroupSetMemory (h : Host) (g : virCgroup) (kb : Nat) : Except CgroupError Unit × Host :=
  setValue h g Controller.memory ControlFile.memoryLimit (Value.number (kb * 1024))

/-- Modelled from the spec: `DenyAllDevices` of section 4.5 writes a wildcard deny rule. -/
def virCgroupDenyAllDevices (h : Host) (g : virCgroup) : Except CgroupError Unit × Host :=
  setValue h g Controller.devices ControlFile.deviceRules (Value.device DeviceRule.denyAll)

/-- Modelled from the spec: `AllowDevice` of section 4.5 writes a rule for a device type and an
exact major:minor pair. -/
def virCgroupAllowDevice (h : Host) (g : virCgroup) (type : Char) (major minor : Int) :
    Except CgroupError Unit × Host :=
  setValue h g Controller.devices ControlFile.deviceRules
    (Value.device (DeviceRule.allow type major (some minor)))

/-- Modelled from the spec: `AllowDeviceMajor` of section 4.5 writes a rule for a whole major
number (wildcard minor). -/
def virCgroupAllowDeviceMajor (h : Host) (g : virCgroup) (type : Char) (major : Int) :
    Except CgroupError Unit × Host :=
  setValue h g Controller.devices ControlFile.deviceRules
    (Value.device (DeviceRule.allow type major none))

/-- Modelled from the spec: `SetCpuShares` of section 4.6, a single write without conversion. -/
def virCgroupSetCpuShares (h : Host) (g : virCgroup) (shares : Nat) :
    Except CgroupError Unit × Host :=
  setValue h g Controller.cpu ControlFile.cpuShares (Value.number shares)

/-- Modelled from the spec: `GetCpuShares` of section 4.6, a pure read. -/
def virCgroupGetCpuShares (h : Host) (g : virCgroup) : Except CgroupError Nat :=
  getValue h g Controller.cpu ControlFile.cpuShares

/-- Modelled from the spec: `GetCpuacctUsage` of section 4.7, a pure read. -/
def virCgroupGetCpuacctUsage (h : Host) (g : virCgroup) : Except CgroupError Nat :=
  getValue h g Controller.cpuacct ControlFile.cpuUsage

/-- The attempts `virCgroupAddTask` logs for the mounts `ms`: one per mount, in order. -/
def taskAttempts (h : Host) (g : virCgroup) (pid : Int) (ms : List ControllerMount) :
    List WriteAttempt :=
  ms.map (fun m => attemptOf h g m ControlFile.membership (Value.task pid))

/-- The errors the membership writes for the mounts `ms` end in, in order. -/
def taskErrors (h : Host) (g : virCgroup) (pid : Int) (ms : List ControllerMount) :
    List CgroupError :=
  ms.filterMap (fun m => writeOutcome h g m ControlFile.membership (Value.task pid))

/-- The memory limit in bytes read back from the handle's memory limit file. -/
def readMemoryLimit (h : Host) (g : virCgroup) : Except CgroupError Nat :=
  getValue h g Controller.memory ControlFile.memoryLimit

/-- The content of the handle's device rule file: the rules written, in order. -/
def deviceRuleFile (h : Host) (g : virCgroup) : List DeviceRule :=
  match findMount g.mounts Controller.devices with
  | none => []
  | some m => rulesWritten h.log m.root g.placement

/-- A call of one of the three device operations. -/
inductive DeviceCall where
  | denyAll
  | allowDevice (type : Char) (major minor : Int)
  | allowDeviceMajor (type : Char) (major : Int)
  deriving DecidableEq, Repr

/-- The rule a device call is meant to write. -/
def DeviceCall.rule : DeviceCall → DeviceRule
  | DeviceCall.denyAll => DeviceRule.denyAll
  | DeviceCall.allowDevice t ma mi => DeviceRule.allow t ma (some mi)
  | DeviceCall.allowDeviceMajor t ma => DeviceRule.allow t ma none

/-- Issues one device call on the handle. -/
def DeviceCall.run (h : Host) (g : virCgroup) : DeviceCall → Except CgroupError Unit × Host
  | DeviceCall.denyAll => virCgroupDenyAllDevices h g
  | DeviceCall.allowDevice t ma mi => virCgroupAllowDevice h g t ma mi
  | DeviceCall.allowDeviceMajor t ma => virCgroupAllowDeviceMajor h g t ma

/-- Issues the calls one after the other; gives each call's result and the final host. -/
def runDeviceCalls (g : virCgroup) :
    List DeviceCall → Host → List (Except CgroupError Unit) × Host
  | [], h => ([], h)
  | c :: cs, h =>
    let r := c.run h g
    let rest := runDeviceCalls g cs r.2
    (r.1 :: rest.1, rest.2)

/-- A host with the four controllers mounted, accepting every write. -/
def sampleHost : Host :=
  { mounts := [⟨Controller.cpu, "/cgroup/cpu", true⟩, ⟨Controller.cpuacct, "/cgroup/cpu", true⟩,
               ⟨Controller.memory, "/cgroup/memory", true⟩,
               ⟨Controller.devices, "/cgroup/devices", true⟩],
    dirs := [], kernel := fun _ _ _ _ => none, initial := fun _ _ _ => 0, log := [] }

/-- A host without the devices controller whose memory mount is read-only. -/
def hostWithoutDevices : Host :=
  { mounts := [⟨Controller.cpu, "/cgroup/cpu", true⟩,
               ⟨Controller.memory, "/cgroup/memory", false⟩],
    dirs := [], kernel := fun _ _ _ _ => none, initial := fun _ _ _ => 0, log := [] }

/-- A driver handle on `sampleHost`. -/
def sampleDriver : virCgroup :=
  { mounts := sampleHost.mounts, placement := ["qemu"], created := true }

/-- A domain handle on `sampleHost`. -/
def sampleGroup : virCgroup :=
  { mounts := sampleHost.mounts, placement := ["qemu", "vm1"], created := true }

/-- A domain handle on `hostWithoutDevices`. -/
def limitedGroup : virCgroup :=
  { mounts := hostWithoutDevices.mounts, placement := ["qemu", "vm1"], created := true }

end Cgroup

namespace VBox

/-! ## Data model of the VirtualBox storage driver -/

/-- The bytes of `unsigned char uuid[VIR_UUID_BUFLEN]`.  A `vboxIIDUnion` is modelled by the UUID
it is made from (`vboxIIDFromUUID`, `vboxIIDToUUID`), `vboxIIDIsEqual` by equality. -/
abbrev UUID := List Nat

/-- The error codes this file reports. -/
inductive virErrorNumber where
  | VIR_ERR_INVALID_ARG
  | VIR_ERR_INTERNAL_ERROR
  | VIR_ERR_NO_DOMAIN
  deriving DecidableEq, Repr

/-- The media state returned by `GetState`; the file only tests for `MediaState_Inaccessible`. -/
inductive MediaState where
  | MediaState_Inaccessible
  | other (n : Nat)
  deriving DecidableEq, Repr

/-- The volume types named in this file. -/
inductive virStorageVolType where
  | VIR_STORAGE_VOL_FILE
  | VIR_STORAGE_VOL_BLOCK
  | other (n : Nat)
  deriving DecidableEq, Repr

/-- The file formats named in this file; `other` stands for the rest of the enum. -/
inductive virStorageFileFormat where
  | VIR_STORAGE_FILE_RAW
  | VIR_STORAGE_FILE_VDI
  | VIR_STORAGE_FILE_VMDK
  | VIR_STORAGE_FILE_VPC
  | other (n : Nat)
  deriving DecidableEq, Repr

/-- The two hard disk variants `vboxStorageVolCreateXML` chooses between. -/
inductive HardDiskVariant where
  | HardDiskVariant_Standard
  | HardDiskVariant_Fixed
  deriving DecidableEq, Repr

/-- An `IProgress`: whether `GetResultCode` gives a failure (`RC_FAILED`). -/
structure IProgress where
  failed : Bool
  deriving DecidableEq, Repr

/-- The medium an attachment holds: what `GetId` answers (`none` is `NS_FAILED`). -/
structure IMedium where
  GetId : Option UUID
  deriving DecidableEq, Repr

/-- A medium attachment of a machine with the answers of the calls made on it.  `GetMedium` is
`none` when the call fails and `some none` when it succeeds with a NULL medium; `DetachDevice`
tells whether detaching this attachment succeeds. -/
structure IMediumAttachment where
  GetMedium : Option (Option IMedium)
  GetController : String
  GetPort : Int
  GetDevice : Int
  DetachDevice : Bool
  deriving DecidableEq, Repr

/-- One item of the disk's machine-id array with the answers of the calls made for it:
`GetMachine` (the `UIVirtualBox.GetMachine` call), `Open` (the session open),
`SessionGetMachine`, and the machine's medium attachments (`none` is a NULL item). -/
structure IMachine where
  id : UUID
  GetMachine : Bool
  Open : Bool
  SessionGetMachine : Bool
  attachments : List (Option IMediumAttachment)
  deriving DecidableEq, Repr

/-- A hard disk as `GetHardDiskByIID` returns it, with the answers of the calls made on it.
`DeleteStorage` is `none` when the call fails and `some none` when it gives no progress. -/
structure IHardDisk where
  GetState : MediaState
  GetName : Option String
  GetLogicalSizeInByte : Option Nat
  GetSize : Option Nat
  GetFormat : Option String
  machineIds : List IMachine
  DeleteStorage : Option (Option IProgress)
  deriving DecidableEq, Repr

/-- The disk `CreateHardDisk` returns: the answers of `CreateBaseStorage` and `GetId`. -/
structure NewHardDisk where
  CreateBaseStorage : Nat → HardDiskVariant → Option (Option IProgress)
  GetId : Option UUID

/-- A storage pool object (`virGetStoragePool`). -/
structure virStoragePool where
  name : String
  uuid : UUID
  deriving DecidableEq, Repr

/-- A storage volume object (`virGetStorageVol`). -/
structure virStorageVol where
  pool : String
  name : String
  key : String
  deriving DecidableEq, Repr

/-- The caller's `virStorageVolInfo`. -/
structure virStorageVolInfo where
  type : virStorageVolType
  capacity : Nat
  allocation : Nat
  deriving DecidableEq, Repr

/-- The fields of `virStorageVolDef` this file reads or writes. -/
structure virStorageVolDef where
  name : Option String
  key : Option String
  type : virStorageVolType
  target_path : Option String
  target_format : virStorageFileFormat
  target_capacity : Nat
  target_allocation : Nat
  deriving DecidableEq, Repr

/-- The calls recorded in a trace: every error report and every VirtualBox call that looks
something up or changes something.  Plain getters on an object already held (`GetState`,
`GetName`, `GetController`, sizes, format) are not recorded. -/
inductive Call where
  | virReportError (code : virErrorNumber) (msg : String)
  | GetHardDiskByIID (iid : UUID)
  | GetMachine (machineId : UUID)
  | SessionOpen (machineId : UUID)
  | SessionGetMachine (machineId : UUID)
  | SessionClose (machineId : UUID)
  | GetMedium (att : IMediumAttachment)
  | GetId (hdd : IMedium)
  | DetachDevice (machineId : UUID) (controller : String) (port device : Int)
  | SaveSettings (machineId : UUID)
  | DeleteStorage
  | WaitForCompletion
  | CreateHardDisk (format location : String)
  | CreateBaseStorage (logicalSize : Nat) (variant : HardDiskVariant)
  deriving DecidableEq, Repr

/-- Everything outside `vbox_storage.c` that its functions consult: the connection's private
data, the `gVBoxAPI` table and the libvirt helpers (`virUUIDParse`, `virGetStoragePool`, ...).
`utf16Alloc` and `utf8Alloc` tell whether a string conversion gets its memory (a conversion
keeps the text), `VIR_STRDUP` whether a duplication does, and `uuidBuffer` is what the `uuid`
buffer of `vboxStoragePoolLookupByName` holds when the parse it ignores fails. -/
structure VBoxWorld where
  vboxObj : Bool
  getMachineForSession : Bool
  virUUIDParse : String → Option UUID
  uuidBuffer : UUID
  virUUIDFormat : UUID → String
  GetHardDiskByIID : UUID → Option IHardDisk
  utf16Alloc : String → Bool
  utf8Alloc : String → Bool
  VIR_STRDUP : String → Bool
  virGetStoragePool : String → UUID → Option virStoragePool
  virGetStorageVol : String → String → String → Option virStorageVol
  virStorageVolDefParseString : String → Option virStorageVolDef
  virStorageVolDefFormat : virStorageVolDef → Option String
  virGetUserDirectory : String
  virAsprintf : String → Option String
  CreateHardDisk : String → String → Option NewHardDisk

/-- The macro `VBOX_UTF8_TO_UTF16`: `none` is a NULL result. -/
def VBOX_UTF8_TO_UTF16 (w : VBoxWorld) (s : String) : Option String :=
  if w.utf16Alloc s then some s else none

/-- The macro `VBOX_UTF16_TO_UTF8`: `none` is a NULL result. -/
def VBOX_UTF16_TO_UTF8 (w : VBoxWorld) (s : String) : Option String :=
  if w.utf8Alloc s then some s else none

/-- The test of the macro `virCheckFlags(supported, retval)` (declared in `internal.h`, outside
this file): true when `flags` has no bit outside `supported`; otherwise the macro reports an
invalid-argument error and returns `retval`. -/
def virCheckFlags (supported flags : Nat) : Bool :=
  decide (Nat.land (flags % 2 ^ 32) (2 ^ 32 - 1 - supported % 2 ^ 32) = 0)

/-- The report `virCheckFlags` makes on an unsupported flag. -/
def flagsError : Call :=
  Call.virReportError virErrorNumber.VIR_ERR_INVALID_ARG "unsupported flags"

/-- The report made when a volume key does not parse as a UUID. -/
def uuidError : Call :=
  Call.virReportError virErrorNumber.VIR_ERR_INVALID_ARG "Could not parse UUID from '%s'"

/-! ## Pools -/

/-- `vboxConnectNumOfStoragePools`: only the default pool is supported. -/
def vboxConnectNumOfStoragePools : Int := 1

/-- `vboxConnectListStoragePools`: gives the return value and the `names` array afterwards.
`VIR_STRDUP` returns a positive value on success and leaves NULL in its target on failure. -/
def vboxConnectListStoragePools (w : VBoxWorld) (names : List (Option String)) (nnames : Int) :
    Int × List (Option String) :=
  let numActive : Nat := 0
  if nnames > 0 then
    if w.VIR_STRDUP "default-pool" then
      (1, names.set numActive (some "default-pool"))
    else
      (0, names.set numActive none)
  else
    (0, names)

/-- `vboxStoragePoolLookupByName`: `none` is a NULL result. -/
def vboxStoragePoolLookupByName (w : VBoxWorld) (name : String) : Option virStoragePool :=
  if "default-pool" = name then
    let uuidstr := "1deff1ff-1481-464f-967f-a50fe8936cc4"
    let uuid := (w.virUUIDParse uuidstr).getD w.uuidBuffer
    w.virGetStoragePool name uuid
  else
    none

/-! ## Volumes -/

/-- `vboxStorageVolLookupByKey`: gives the volume (`none` is NULL) and the calls made.  `key` is
`none` for a NULL pointer. -/
def vboxStorageVolLookupByKey (w : VBoxWorld) (key : Option String) :
    Option virStorageVol × List Call :=
  if !w.vboxObj then (none, [])
  else
    match key with
    | none => (none, [])
    | some k =>
      match w.virUUIDParse k with
      | none => (none, [uuidError])
      | some uuid =>
        match w.GetHardDiskByIID uuid with
        | none => (none, [Call.GetHardDiskByIID uuid])
        | some hardDisk =>
          if hardDisk.GetState = MediaState.MediaState_Inaccessible then
            (none, [Call.GetHardDiskByIID uuid])
          else
            match hardDisk.GetName with
            | none => (none, [Call.GetHardDiskByIID uuid])
            | some hddNameUtf16 =>
              match VBOX_UTF16_TO_UTF8 w hddNameUtf16 with
              | none => (none, [Call.GetHardDiskByIID uuid])
              | some hddNameUtf8 =>
                if vboxConnectNumOfStoragePools = 1 then
                  (w.virGetStorageVol "default-pool" hddNameUtf8 k, [Call.GetHardDiskByIID uuid])
                else
                  (none, [Call.GetHardDiskByIID uuid])

/-- The format name `vboxStorageVolCreateXML` hands to `CreateHardDisk`: vmdk, vpc (as VHD), and
vdi for everything else. -/
def hddFormat (format : virStorageFileFormat) : String :=
  if format = virStorageFileFormat.VIR_STORAGE_FILE_VMDK then "VMDK"
  else if format = virStorageFileFormat.VIR_STORAGE_FILE_VPC then "VHD"
  else "VDI"

/-- The variant `vboxStorageVolCreateXML` hands to `CreateBaseStorage`: it starts as Standard and
becomes Fixed when capacity and allocation are equal. -/
def hddVariant (capacity allocation : Nat) : HardDiskVariant :=
  if capacity = allocation then HardDiskVariant.HardDiskVariant_Fixed
  else HardDiskVariant.HardDiskVariant_Standard

/-- The macro `VIR_DIV_UP(value, size)` (declared in `internal.h`, outside this file) on
`unsigned long long`: `(value + size - 1) / size`. -/
def VIR_DIV_UP (value size : Nat) : Nat :=
  ((value + size - 1) % 2 ^ 64) / size

/-- The part of `vboxStorageVolCreateXML` from the `CreateHardDisk` call on, once both strings
are converted: `d` is the parsed definition and `name` its name. -/
def createStorage (w : VBoxWorld) (poolName name : String) (d : virStorageVolDef)
    (format16 name16 : String) : Option virStorageVol × List Call :=
  match w.CreateHardDisk format16 name16 with
  | none =>
    (none, [Call.CreateHardDisk format16 name16,
            Call.virReportError virErrorNumber.VIR_ERR_INTERNAL_ERROR
              "Could not create harddisk, rc=%08x"])
  | some hardDisk =>
    let logicalSize := VIR_DIV_UP d.target_capacity (1024 * 1024)
    let variant := hddVariant d.target_capacity d.target_allocation
    match hardDisk.CreateBaseStorage logicalSize variant with
    | some (some progress) =>
      if progress.failed then
        (none, [Call.CreateHardDisk format16 name16,
                Call.CreateBaseStorage logicalSize variant, Call.WaitForCompletion,
                Call.virReportError virErrorNumber.VIR_ERR_INTERNAL_ERROR
                  "Could not create base storage, rc=%08x"])
      else
        match hardDisk.GetId with
        | none =>
          (none, [Call.CreateHardDisk format16 name16,
                  Call.CreateBaseStorage logicalSize variant, Call.WaitForCompletion])
        | some uuid =>
          (w.virGetStorageVol poolName name (w.virUUIDFormat uuid),
           [Call.CreateHardDisk format16 name16,
            Call.CreateBaseStorage logicalSize variant, Call.WaitForCompletion])
    | _ =>
      (none, [Call.CreateHardDisk format16 name16,
              Call.CreateBaseStorage logicalSize variant,
              Call.virReportError virErrorNumber.VIR_ERR_INTERNAL_ERROR
                "Could not create base storage, rc=%08x"])

/-- `vboxStorageVolCreateXML`: gives the new volume (`none` is NULL) and the calls made.
`poolName` is `pool->name`. -/
def vboxStorageVolCreateXML (w : VBoxWorld) (poolName : String) (xml : String) (flags : Nat) :
    Option virStorageVol × List Call :=
  if !w.vboxObj then (none, [])
  else if !virCheckFlags 0 flags then (none, [flagsError])
  else
    match w.virStorageVolDefParseString xml with
    | none => (none, [])
    | some d =>
      match d.name with
      | none => (none, [])
      | some name =>
        if d.type ≠ virStorageVolType.VIR_STORAGE_VOL_FILE then (none, [])
        else
          let hddFormatUtf16 := VBOX_UTF8_TO_UTF16 w (hddFormat d.target_format)
          let path := match d.target_path with
            | some p => some p
            | none => w.virAsprintf (w.virGetUserDirectory ++ "/.VirtualBox/" ++ name)
          match path with
          | none => (none, [])
          | some p =>
            match hddFormatUtf16, VBOX_UTF8_TO_UTF16 w p with
            | some format16, some name16 => createStorage w poolName name d format16 name16
            | _, _ => (none, [])

/-- One turn of the inner loop of `vboxStorageVolDelete` over a machine's medium attachments:
gives the counter `deregister` afterwards and the calls made.  Every exit of the body is a
`continue` or its end. -/
def attachmentStep (hddIID : UUID) (machine : IMachine) (hddAttachment : Option IMediumAttachment)
    (deregister : Nat) : Nat × List Call :=
  match hddAttachment with
  | none => (deregister, [])
  | some att =>
    match att.GetMedium with
    | none => (deregister, [Call.GetMedium att])
    | some none => (deregister, [Call.GetMedium att])
    | some (some hdd) =>
      match hdd.GetId with
      | none => (deregister, [Call.GetMedium att, Call.GetId hdd])
      | some iid =>
        if hddIID = iid then
          if att.DetachDevice then
            (deregister + 1,
             [Call.GetMedium att, Call.GetId hdd,
              Call.DetachDevice machine.id att.GetController att.GetPort att.GetDevice,
              Call.SaveSettings machine.id])
          else
            (deregister,
             [Call.GetMedium att, Call.GetId hdd,
              Call.DetachDevice machine.id att.GetController att.GetPort att.GetDevice])
        else (deregister, [Call.GetMedium att, Call.GetId hdd])

/-- The inner loop `for (j = 0; j < hddAttachments.count; j++)`. -/
def attachmentLoop (hddIID : UUID) (machine : IMachine) :
    List (Option IMediumAttachment) → Nat → Nat × List Call
  | [], deregister => (deregister, [])
  | att :: rest, deregister =>
    let s := attachmentStep hddIID machine att deregister
    let r := attachmentLoop hddIID machine rest s.1
    (r.1, s.2 ++ r.2)

/-- One turn of the outer loop of `vboxStorageVolDelete` over the machine ids.  The first
component is true when the body leaves the loop by `break` (a failed `GetMachine`). -/
def machineStep (w : VBoxWorld) (hddIID : UUID) (machine : IMachine) (deregister : Nat) :
    Bool × Nat × List Call :=
  if w.getMachineForSession && !machine.GetMachine then
    (true, deregister,
     [Call.GetMachine machine.id,
      Call.virReportError virErrorNumber.VIR_ERR_NO_DOMAIN "no domain with matching uuid"])
  else
    let pre := if w.getMachineForSession then [Call.GetMachine machine.id] else []
    if !machine.Open then
      (false, deregister, pre ++ [Call.SessionOpen machine.id])
    else if !machine.SessionGetMachine then
      (false, deregister,
       pre ++ [Call.SessionOpen machine.id, Call.SessionGetMachine machine.id,
               Call.SessionClose machine.id])
    else
      let r := attachmentLoop hddIID machine machine.attachments deregister
      (false, r.1,
       pre ++ [Call.SessionOpen machine.id, Call.SessionGetMachine machine.id] ++ r.2
         ++ [Call.SessionClose machine.id])

/-- The outer loop `for (i = 0; i < machineIds.count; i++)`. -/
def machineLoop (w : VBoxWorld) (hddIID : UUID) : List IMachine → Nat → Nat × List Call
  | [], deregister => (deregister, [])
  | machine :: rest, deregister =>
    let s := machineStep w hddIID machine deregister
    if s.1 then (s.2.1, s.2.2)
    else
      let r := machineLoop w hddIID rest s.2.1
      (r.1, s.2.2 ++ r.2)

/-- `vboxStorageVolDelete` (the build without `WIN32`): gives the return value and the calls
made.  `machineIdsSize` is a `PRUint32`, and the `int` counter is converted to it for the
comparison. -/
def vboxStorageVolDelete (w : VBoxWorld) (vol : virStorageVol) (flags : Nat) : Int × List Call :=
  if !w.vboxObj then (-1, [])
  else if !virCheckFlags 0 flags then (-1, [flagsError])
  else
    match w.virUUIDParse vol.key with
    | none => (-1, [uuidError])
    | some uuid =>
      match w.GetHardDiskByIID uuid with
      | none => (-1, [Call.GetHardDiskByIID uuid])
      | some hardDisk =>
        if hardDisk.GetState = MediaState.MediaState_Inaccessible then
          (-1, [Call.GetHardDiskByIID uuid])
        else
          let machineIdsSize := hardDisk.machineIds.length % 2 ^ 32
          let s := machineLoop w uuid hardDisk.machineIds 0
          if machineIdsSize = 0 ∨ machineIdsSize = s.1 % 2 ^ 32 then
            match hardDisk.DeleteStorage with
            | some (some _) =>
              (0, [Call.GetHardDiskByIID uuid] ++ s.2
                    ++ [Call.DeleteStorage, Call.WaitForCompletion])
            | _ => (-1, [Call.GetHardDiskByIID uuid] ++ s.2 ++ [Call.DeleteStorage])
          else
            (-1, [Call.GetHardDiskByIID uuid] ++ s.2)

/-- `vboxStorageVolGetInfo`: gives the return value, the caller's `info` afterwards (`none` is a
NULL pointer) and the calls made.  The return codes of the two size getters are not tested;
a getter that fails leaves the zero the local was initialised with. -/
def vboxStorageVolGetInfo (w : VBoxWorld) (vol : virStorageVol) (info : Option virStorageVolInfo) :
    Int × Option virStorageVolInfo × List Call :=
  if !w.vboxObj then (-1, info, [])
  else
    match info with
    | none => (-1, info, [])
    | some _ =>
      match w.virUUIDParse vol.key with
      | none => (-1, info, [uuidError])
      | some uuid =>
        match w.GetHardDiskByIID uuid with
        | none => (-1, info, [Call.GetHardDiskByIID uuid])
        | some hardDisk =>
          if hardDisk.GetState = MediaState.MediaState_Inaccessible then
            (-1, info, [Call.GetHardDiskByIID uuid])
          else
            (0,
             some { type := virStorageVolType.VIR_STORAGE_VOL_FILE,
                    capacity := hardDisk.GetLogicalSizeInByte.getD 0,
                    allocation := hardDisk.GetSize.getD 0 },
             [Call.GetHardDiskByIID uuid])

/-- The macro `STRCASEEQ` (declared in `internal.h`, outside this file): equality of two
strings without regard to the case of ASCII letters. -/
def STRCASEEQ (a b : String) : Bool :=
  a.data.map Char.toLower = b.data.map Char.toLower

/-- The format `vboxStorageVolGetXMLDesc` puts into the definition for a VirtualBox format
name. -/
def xmlFormat (hddFormatUtf8 : String) : virStorageFileFormat :=
  if STRCASEEQ "vmdk" hddFormatUtf8 then virStorageFileFormat.VIR_STORAGE_FILE_VMDK
  else if STRCASEEQ "vhd" hddFormatUtf8 then virStorageFileFormat.VIR_STORAGE_FILE_VPC
  else if STRCASEEQ "vdi" hddFormatUtf8 then virStorageFileFormat.VIR_STORAGE_FILE_VDI
  else virStorageFileFormat.VIR_STORAGE_FILE_RAW

/-- `vboxStorageVolGetXMLDesc`: gives the XML (`none` is NULL) and the calls made.  The
definition handed to `virStorageVolDefFormat` is zeroed by `memset` but for the fields set here;
format 0 of the zeroed definition is written `other 0`. -/
def vboxStorageVolGetXMLDesc (w : VBoxWorld) (vol : virStorageVol) (flags : Nat) :
    Option String × List Call :=
  if !w.vboxObj then (none, [])
  else if !virCheckFlags 0 flags then (none, [flagsError])
  else
    match w.virUUIDParse vol.key with
    | none => (none, [uuidError])
    | some uuid =>
      match w.GetHardDiskByIID uuid with
      | none => (none, [Call.GetHardDiskByIID uuid])
      | some hardDisk =>
        if hardDisk.GetState = MediaState.MediaState_Inaccessible then
          (none, [Call.GetHardDiskByIID uuid])
        else
          match hardDisk.GetLogicalSizeInByte, hardDisk.GetSize with
          | some hddLogicalSize, some _ =>
            if !w.VIR_STRDUP vol.name then (none, [Call.GetHardDiskByIID uuid])
            else if !w.VIR_STRDUP vol.key then (none, [Call.GetHardDiskByIID uuid])
            else
              match hardDisk.GetFormat with
              | none => (none, [Call.GetHardDiskByIID uuid])
              | some hddFormatUtf16 =>
                match VBOX_UTF16_TO_UTF8 w hddFormatUtf16 with
                | none => (none, [Call.GetHardDiskByIID uuid])
                | some hddFormatUtf8 =>
                  (w.virStorageVolDefFormat
                     { name := some vol.name, key := some vol.key,
                       type := virStorageVolType.VIR_STORAGE_VOL_FILE,
                       target_path := none, target_format := xmlFormat hddFormatUtf8,
                       target_capacity := hddLogicalSize, target_allocation := 0 },
                   [Call.GetHardDiskByIID uuid])
          | _, _ => (none, [Call.GetHardDiskByIID uuid])

/-! ## Reading a trace -/

/-- The machine ids a session was opened for, in call order. -/
def sessionOpens (t : List Call) : List UUID :=
  t.filterMap (fun c => match c with
    | Call.SessionOpen i => some i
    | _ => none)

/-- The attachments whose medium was fetched, in call order. -/
def mediaFetched (t : List Call) : List IMediumAttachment :=
  t.filterMap (fun c => match c with
    | Call.GetMedium a => some a
    | _ => none)

/-- A machine counts as examined in a trace when a call was made for its id. -/
def examined (t : List Call) (machine : IMachine) : Bool :=
  t.contains (Call.GetMachine machine.id) || t.contains (Call.SessionOpen machine.id)

/-- The non-NULL attachments of the machines whose session was opened and gave its machine. -/
def openedAttachments (ms : List IMachine) : List IMediumAttachment :=
  (ms.filter (fun m => m.Open && m.SessionGetMachine)).flatMap
    (fun m => m.attachments.filterMap id)

/-! ## A sample world -/

/-- The value of a hexadecimal digit. -/
def hexVal (c : Char) : Option Nat :=
  if 48 ≤ c.toNat ∧ c.toNat ≤ 57 then some (c.toNat - 48)
  else if 97 ≤ c.toNat ∧ c.toNat ≤ 102 then some (c.toNat - 87)
  else if 65 ≤ c.toNat ∧ c.toNat ≤ 70 then some (c.toNat - 55)
  else none

/-- Reads pairs of hexadecimal digits, skipping hyphens between pairs. -/
def hexPairs : List Char → Option (List Nat)
  | [] => some []
  | [_] => none
  | a :: b :: rest =>
    if a = '-' then hexPairs (b :: rest)
    else
      match hexVal a, hexVal b, hexPairs rest with
      | some hi, some lo, some tl => some ((16 * hi + lo) :: tl)
      | _, _, _ => none

/-- The UUID parser of the sample world, standing in for `virUUIDParse`: sixteen bytes written
as pairs of hexadecimal digits. -/
def sampleUUIDParse (s : String) : Option UUID :=
  match hexPairs s.data with
  | some bytes => if bytes.length = 16 then some bytes else none
  | none => none

/-- The bytes of the key of the sample disk. -/
def diskUUID : UUID := [0, 17, 34, 51, 68, 85, 102, 119, 136, 153, 170, 187, 204, 221, 238, 255]

/-- An attachment holding the sample disk, whose detach succeeds. -/
def diskAttachment : IMediumAttachment :=
  { GetMedium := some (some { GetId := some diskUUID }), GetController := "SATA",
    GetPort := 0, GetDevice := 0, DetachDevice := true }

/-- A machine whose `GetMachine` fails. -/
def lostMachine : IMachine :=
  { id := [1], GetMachine := false, Open := true, SessionGetMachine := true,
    attachments := [some diskAttachment] }

/-- A machine whose session cannot be opened. -/
def busyMachine : IMachine :=
  { id := [3], GetMachine := true, Open := false, SessionGetMachine := true,
    attachments := [some diskAttachment] }

/-- A machine that opens and has the sample disk attached behind a NULL item. -/
def goodMachine : IMachine :=
  { id := [2], GetMachine := true, Open := true, SessionGetMachine := true,
    attachments := [none, some diskAttachment] }

/-- A disk used by `ms`. -/
def diskUsedBy (ms : List IMachine) : IHardDisk :=
  { GetState := MediaState.other 1, GetName := some "disk.vdi",
    GetLogicalSizeInByte := some 1048576, GetSize := some 4096, GetFormat := some "VDI",
    machineIds := ms, DeleteStorage := some (some { failed := false }) }

/-- A volume definition as the sample world parses it from any XML. -/
def sampleVolDef : virStorageVolDef :=
  { name := some "disk.vmdk", key := none, type := virStorageVolType.VIR_STORAGE_VOL_FILE,
    target_path := some "/images/disk.vmdk",
    target_format := virStorageFileFormat.VIR_STORAGE_FILE_VMDK,
    target_capacity := 1048576, target_allocation := 1048576 }

/-- A connected world in which the disk with key `diskUUID` is used by `ms` and every helper
does its work. -/
def worldWith (ms : List IMachine) : VBoxWorld :=
  { vboxObj := true, getMachineForSession := true, virUUIDParse := sampleUUIDParse,
    uuidBuffer := [], virUUIDFormat := fun _ => "00112233-4455-6677-8899-aabbccddeeff",
    GetHardDiskByIID := fun u => if u = diskUUID then some (diskUsedBy ms) else none,
    utf16Alloc := fun _ => true, utf8Alloc := fun _ => true, VIR_STRDUP := fun _ => true,
    virGetStoragePool := fun n u => some { name := n, uuid := u },
    virGetStorageVol := fun p n k => some { pool := p, name := n, key := k },
    virStorageVolDefParseString := fun _ => some sampleVolDef,
    virStorageVolDefFormat := fun _ => some "<volume/>",
    virGetUserDirectory := "/root", virAsprintf := fun s => some s,
    CreateHardDisk := fun _ _ =>
      some { CreateBaseStorage := fun _ _ => some (some { failed := false }),
             GetId := some diskUUID } }

/-- The sample world when `virGetStoragePool` cannot build its object and returns NULL. -/
def poolLessWorld : VBoxWorld :=
  { worldWith [] with virGetStoragePool := fun _ _ => none }

/-- The sample world when `virUUIDParse` fails on every string and the `uuid` buffer of
`vboxStoragePoolLookupByName` holds the single byte 0. -/
def unparsedWorld : VBoxWorld :=
  { worldWith [] with virUUIDParse := fun _ => none, uuidBuffer := [0] }

/-- A volume whose key is not a UUID. -/
def badVol : virStorageVol := { pool := "default-pool", name := "disk.vdi", key := "not-a-uuid" }

/-- The volume of the sample disk. -/
def diskVol : virStorageVol :=
  { pool := "default-pool", name := "disk.vdi", key := "00112233-4455-6677-8899-aabbccddeeff" }

/-! ## The detach counter of `vboxStorageVolDelete` -/

/-- Whether a turn of the inner loop increments `deregister`: the item is not NULL, its medium
is fetched, the medium's id is read and equals the id of the disk, and `DetachDevice`
succeeds. -/
def detaches (hddIID : UUID) (hddAttachment : Option IMediumAttachment) : Bool :=
  match hddAttachment with
  | none => false
  | some att =>
    match att.GetMedium with
    | some (some hdd) =>
      match hdd.GetId with
      | some iid => decide (hddIID = iid) && att.DetachDevice
      | none => false
    | _ => false

/-- The number of attachments of a machine that hold the disk and are detached from it. -/
def detachCount (hddIID : UUID) (machine : IMachine) : Nat :=
  machine.attachments.countP (detaches hddIID)

/-- Whether the outer loop ends at this machine: `GetMachine` is made and fails. -/
def stopsScan (w : VBoxWorld) (machine : IMachine) : Bool :=
  w.getMachineForSession && !machine.GetMachine

/-- The machines the outer loop gets to work on: those before the first one that ends it. -/
def scanned (w : VBoxWorld) (ms : List IMachine) : List IMachine :=
  ms.takeWhile (fun m => !stopsScan w m)

/-- What a scanned machine adds to `deregister`: its detached attachments when its session
opens and gives the machine, nothing otherwise. -/
def detachedOn (hddIID : UUID) (machine : IMachine) : Nat :=
  if machine.Open && machine.SessionGetMachine then detachCount hddIID machine else 0

/-- The value of `deregister` after the outer loop over `ms`. -/
def detachedTotal (w : VBoxWorld) (hddIID : UUID) (ms : List IMachine) : Nat :=
  ((scanned w ms).map (detachedOn hddIID)).sum

/-- The disk was detached from the machine: the machine did not end the scan, its session
opened and gave the machine, and a `DetachDevice` of an attachment holding the disk
succeeded. -/
def detachedFrom (w : VBoxWorld) (hddIID : UUID) (machine : IMachine) : Bool :=
  !stopsScan w machine && machine.Open && machine.SessionGetMachine
    && decide (0 < detachCount hddIID machine)

/-- A machine that has the sample disk attached twice. -/
def twiceMachine : IMachine :=
  { id := [4], GetMachine := true, Open := true, SessionGetMachine := true,
    attachments := [some diskAttachment, some diskAttachment] }

end VBox

/-! # Theorems -/

namespace Cgroup

/-! ## Helper lemmas -/

theorem numbersWritten_append (l₁ l₂ : List WriteAttempt) (root : String)
    (placement : List String) (f : ControlFile) :
    numbersWritten (l₁ ++ l₂) root placement f
      = numbersWritten l₁ root placement f ++ numbersWritten l₂ root placement f := by
  simp [numbersWritten, List.filterMap_append]

theorem rulesWritten_append (l₁ l₂ : List WriteAttempt) (root : String)
    (placement : List String) :
    rulesWritten (l₁ ++ l₂) root placement
      = rulesWritten l₁ root placement ++ rulesWritten l₂ root placement := by
  simp [rulesWritten, List.filterMap_append]

theorem resultOf_eq_ok (o : Option CgroupError) : resultOf o = Except.ok () ↔ o = none := by
  cases o <;> simp [resultOf]

theorem writeOutcome_log (h : Host) (l : List WriteAttempt) (g : virCgroup)
    (m : ControllerMount) (f : ControlFile) (v : Value) :
    writeOutcome { h with log := l } g m f v = writeOutcome h g m f v := rfl

theorem attemptOf_log (h : Host) (l : List WriteAttempt) (g : virCgroup)
    (m : ControllerMount) (f : ControlFile) (v : Value) :
    attemptOf { h with log := l } g m f v = attemptOf h g m f v := rfl

theorem addTaskLoop_host (g : virCgroup) (pid : Int) (ms : List ControllerMount) :
    ∀ (first : Option CgroupError) (h : Host),
      (addTaskLoop g pid ms first h).2 = { h with log := h.log ++ taskAttempts h g pid ms } := by
  induction ms with
  | nil => intro first h; simp [addTaskLoop, taskAttempts]
  | cons m ms ih =>
    intro first h
    simp only [addTaskLoop, writeMount]
    rw [ih]
    simp [taskAttempts, attemptOf_log, List.append_assoc]

theorem addTaskLoop_first (g : virCgroup) (pid : Int) (ms : List ControllerMount) :
    ∀ (first : Option CgroupError) (h : Host),
      (addTaskLoop g pid ms first h).1
        = match first with
          | some e => some e
          | none => (taskErrors h g pid ms).head? := by
  induction ms with
  | nil => intro first h; cases first <;> simp [addTaskLoop, taskErrors]
  | cons m ms ih =>
    intro first h
    simp only [addTaskLoop, writeMount]
    rw [ih]
    cases first with
    | some e => rfl
    | none =>
      cases hw : writeOutcome h g m ControlFile.membership (Value.task pid) with
      | none =>
        simp only [taskErrors, List.filterMap_cons, hw, writeOutcome_log]
      | some e =>
        simp only [taskErrors, List.filterMap_cons, hw, List.head?_cons]

theorem filterMap_head?_eq_some {α β : Type} (f : α → Option β) (e : β) (l : List α) :
    (l.filterMap f).head? = some e ↔
      ∃ pre m post, l = pre ++ m :: post ∧ (∀ x ∈ pre, f x = none) ∧ f m = some e := by
  induction l with
  | nil => simp
  | cons a l ih =>
    cases ha : f a with
    | none =>
      rw [List.filterMap_cons_none ha, ih]
      constructor
      · rintro ⟨pre, m, post, rfl, hpre, hm⟩
        refine ⟨a :: pre, m, post, rfl, ?_, hm⟩
        intro x hx
        rcases List.mem_cons.1 hx with rfl | hx
        · exact ha
        · exact hpre x hx
      · rintro ⟨pre, m, post, hl, hpre, hm⟩
        cases pre with
        | nil =>
          simp only [List.nil_append, List.cons.injEq] at hl
          rw [hl.1, hm] at ha
          cases ha
        | cons b pre =>
          simp only [List.cons_append, List.cons.injEq] at hl
          exact ⟨pre, m, post, hl.2, fun x hx => hpre x (List.mem_cons_of_mem _ hx), hm⟩
    | some b =>
      rw [List.filterMap_cons_some ha, List.head?_cons]
      constructor
      · intro hb
        refine ⟨[], a, l, rfl, ?_, ?_⟩
        · intro x hx; cases hx
        · rw [ha, hb]
      · rintro ⟨pre, m, post, hl, hpre, hm⟩
        cases pre with
        | nil =>
          simp only [List.nil_append, List.cons.injEq] at hl
          rw [← hl.1, ha] at hm
          exact hm
        | cons c pre =>
          simp only [List.cons_append, List.cons.injEq] at hl
          have := hpre c (List.mem_cons_self _ _)
          rw [← hl.1, ha] at this
          cases this

theorem filterMap_eq_nil_iff_forall {α β : Type} (f : α → Option β) (l : List α) :
    l.filterMap f = [] ↔ ∀ x ∈ l, f x = none := by
  induction l with
  | nil => simp
  | cons a l ih =>
    cases ha : f a with
    | none => rw [List.filterMap_cons_none ha, ih]; simp [ha]
    | some b => rw [List.filterMap_cons_some ha]; simp [ha]

theorem rulesWritten_single (root : String) (placement : List String) (r : DeviceRule)
    (o : Option CgroupError) :
    rulesWritten [{ root := root, placement := placement, file := ControlFile.deviceRules,
                    value := Value.device r, outcome := o }] root placement
      = if succeeded (resultOf o) then [r] else [] := by
  cases o <;> simp [rulesWritten, resultOf, succeeded]

theorem setValue_deviceRuleFile (h : Host) (g : virCgroup) (r : DeviceRule) :
    deviceRuleFile (setValue h g Controller.devices ControlFile.deviceRules (Value.device r)).2 g
      = deviceRuleFile h g
          ++ (if succeeded
                (setValue h g Controller.devices ControlFile.deviceRules (Value.device r)).1
              then [r] else []) := by
  unfold setValue deviceRuleFile
  cases hm : findMount g.mounts Controller.devices with
  | none => simp [succeeded]
  | some m =>
    simp only [writeMount, rulesWritten_append]
    congr 1
    exact rulesWritten_single m.root g.placement r _

theorem run_deviceRuleFile (h : Host) (g : virCgroup) (c : DeviceCall) :
    deviceRuleFile (c.run h g).2 g
      = deviceRuleFile h g ++ (if succeeded (c.run h g).1 then [c.rule] else []) := by
  cases c <;> exact setValue_deviceRuleFile h g _

theorem setValue_kernel (h : Host) (g : virCgroup) (c : Controller) (f : ControlFile)
    (v : Value) : (setValue h g c f v).2.kernel = h.kernel := by
  unfold setValue
  cases findMount g.mounts c <;> rfl

theorem run_kernel (h : Host) (g : virCgroup) (c : DeviceCall) :
    (c.run h g).2.kernel = h.kernel := by
  cases c <;> exact setValue_kernel h g _ _ _

theorem setValue_ok_of_accept (h : Host) (g : virCgroup) (m : ControllerMount) (c : Controller)
    (f : ControlFile) (v : Value) (hm : findMount g.mounts c = some m)
    (hw : m.writable = true) (hk : h.kernel m.root g.placement f v = none) :
    (setValue h g c f v).1 = Except.ok () := by
  simp [setValue, hm, writeMount, writeOutcome, hw, hk, resultOf]

theorem runDeviceCalls_rules (g : virCgroup) (calls : List DeviceCall) :
    ∀ h : Host, (∀ r ∈ (runDeviceCalls g calls h).1, succeeded r = true) →
      deviceRuleFile (runDeviceCalls g calls h).2 g
        = deviceRuleFile h g ++ calls.map DeviceCall.rule := by
  induction calls with
  | nil => intro h _; simp [runDeviceCalls]
  | cons c cs ih =>
    intro h hok
    simp only [runDeviceCalls] at hok ⊢
    have hc : succeeded (c.run h g).1 = true := hok _ (List.mem_cons_self _ _)
    have hcs : ∀ r ∈ (runDeviceCalls g cs (c.run h g).2).1, succeeded r = true :=
      fun r hr => hok r (List.mem_cons_of_mem _ hr)
    rw [ih _ hcs, run_deviceRuleFile, hc]
    simp

theorem runDeviceCalls_ok (g : virCgroup) (m : ControllerMount)
    (hm : findMount g.mounts Controller.devices = some m) (hw : m.writable = true)
    (calls : List DeviceCall) :
    ∀ h : Host, (∀ v, h.kernel m.root g.placement ControlFile.deviceRules v = none) →
      ∀ r ∈ (runDeviceCalls g calls h).1, succeeded r = true := by
  induction calls with
  | nil => intro h _ r hr; simp [runDeviceCalls] at hr
  | cons c cs ih =>
    intro h hk r hr
    simp only [runDeviceCalls, List.mem_cons] at hr
    rcases hr with rfl | hr
    · cases c <;>
        simp [DeviceCall.run, virCgroupDenyAllDevices, virCgroupAllowDevice,
          virCgroupAllowDeviceMajor, setValue_ok_of_accept h g m _ _ _ hm hw (hk _), succeeded]
    · refine ih (c.run h g).2 ?_ r hr
      intro v
      rw [run_kernel]
      exact hk v

/-! ## The claims about the cgroup interface -/

/-- Claim C1: on a handle whose memory controller is mounted, `virCgroupSetMemory group kb`
attempts exactly one write, to the memory limit file of the handle's cgroup, of the byte value
`kb * 1024`; it succeeds exactly when that write does (always on a writable mount whose kernel
accepts the value), and after a success the limit read back is `kb * 1024`. -/
theorem virCgroupSetMemory_writes_bytes (h : Host) (g : virCgroup) (kb : Nat)
    (m : ControllerMount) (hm : findMount g.mounts Controller.memory = some m) :
    (virCgroupSetMemory h g kb).2.log
        = h.log ++ [{ root := m.root, placement := g.placement, file := ControlFile.memoryLimit,
                      value := Value.number (kb * 1024),
                      outcome := writeOutcome h g m ControlFile.memoryLimit
                        (Value.number (kb * 1024)) }]
      ∧ ((virCgroupSetMemory h g kb).1 = Except.ok ()
          ↔ writeOutcome h g m ControlFile.memoryLimit (Value.number (kb * 1024)) = none)
      ∧ (m.writable = true →
          h.kernel m.root g.placement ControlFile.memoryLimit (Value.number (kb * 1024)) = none →
          (virCgroupSetMemory h g kb).1 = Except.ok ())
      ∧ ((virCgroupSetMemory h g kb).1 = Except.ok () →
          readMemoryLimit (virCgroupSetMemory h g kb).2 g = Except.ok (kb * 1024)) := by
  have hrun : virCgroupSetMemory h g kb
      = writeMount h g m ControlFile.memoryLimit (Value.number (kb * 1024)) := by
    simp [virCgroupSetMemory, setValue, hm]
  rw [hrun]
  refine ⟨rfl, ?_, ?_, ?_⟩
  · exact resultOf_eq_ok _
  · intro hw hk
    exact setValue_ok_of_accept h g m Controller.memory _ _ hm hw hk ▸
      (by simp [setValue, hm])
  · intro hok
    have ho : writeOutcome h g m ControlFile.memoryLimit (Value.number (kb * 1024)) = none :=
      (resultOf_eq_ok _).1 hok
    simp [readMemoryLimit, getValue, hm, readNumber, writeMount, numbersWritten_append,
      numbersWritten, attemptOf, ho]

/-- Witness of claim C1: a limit of 1048576 KiB on the sample host is written, and read back,
as 1073741824 bytes. -/
theorem virCgroupSetMemory_writes_bytes_witness :
    (virCgroupSetMemory sampleHost sampleGroup 1048576).2.log
        = [{ root := "/cgroup/memory", placement := ["qemu", "vm1"],
             file := ControlFile.memoryLimit, value := Value.number 1073741824,
             outcome := none }]
      ∧ (virCgroupSetMemory sampleHost sampleGroup 1048576).1 = Except.ok ()
      ∧ readMemoryLimit (virCgroupSetMemory sampleHost sampleGroup 1048576).2 sampleGroup
          = Except.ok 1073741824 := by
  have t := virCgroupSetMemory_writes_bytes sampleHost sampleGroup 1048576
    ⟨Controller.memory, "/cgroup/memory", true⟩ rfl
  have hok := t.2.2.1 rfl rfl
  exact ⟨t.1, hok, t.2.2.2 hok⟩

/-- Claim C3: whenever `virCgroupForDomain` produces a handle for driver handle `d` and domain
name `n`, its placement is `d`'s placement followed by the single segment `n`; with
`create` it always produces one; and under a handle made by `virCgroupForDriver` for the driver
name `driverName` the placement is `[driverName, n]`, whatever the host state and the flags. -/
theorem virCgroupForDomain_placement (h : Host) (d : virCgroup) (n : String) :
    (∀ (create : Bool) (g : virCgroup) (h' : Host),
        virCgroupForDomain h d n create = (Except.ok g, h') →
        g.placement = d.placement ++ [n])
      ∧ (∃ (g : virCgroup) (h' : Host),
          virCgroupForDomain h d n true = (Except.ok g, h') ∧ g.placement = d.placement ++ [n])
      ∧ (∀ (h₀ h₁ : Host) (driverName : String) (privileged create₀ : Bool),
          virCgroupForDriver h₀ driverName privileged create₀ = (Except.ok d, h₁) →
          ∀ (create : Bool) (g : virCgroup) (h' : Host),
            virCgroupForDomain h d n create = (Except.ok g, h') →
            g.placement = [driverName, n]) := by
  have key : ∀ (hh : Host) (p : List String) (create : Bool) (g : virCgroup) (h' : Host),
      resolve hh p create = (Except.ok g, h') → g.placement = p := by
    intro hh p create g h' hr
    unfold resolve at hr
    split at hr
    · simp only [Prod.mk.injEq, Except.ok.injEq] at hr
      rw [← hr.1]
    · split at hr
      · simp only [Prod.mk.injEq, Except.ok.injEq] at hr
        rw [← hr.1]
      · simp at hr
  refine ⟨?_, ?_, ?_⟩
  · intro create g h' hr
    exact key h _ create g h' hr
  · exact ⟨_, _, rfl, rfl⟩
  · intro h₀ h₁ driverName privileged create₀ hd create g h' hr
    have hp : d.placement = [driverName] := key h₀ _ create₀ d h₁ hd
    rw [key h _ create g h' hr, hp]
    rfl

/-- Witness of claim C3: the domain `vm1` under the driver `qemu` on the sample host. -/
theorem virCgroupForDomain_placement_witness :
    (virCgroupForDriver sampleHost "qemu" true true).1 = Except.ok sampleDriver
      ∧ (virCgroupForDomain (virCgroupForDriver sampleHost "qemu" true true).2
          sampleDriver "vm1" true).1 = Except.ok sampleGroup
      ∧ sampleGroup.placement = sampleDriver.placement ++ ["vm1"]
      ∧ sampleGroup.placement = ["qemu", "vm1"] :=
  have t := virCgroupForDomain_placement (virCgroupForDriver sampleHost "qemu" true true).2
    sampleDriver "vm1"
  ⟨rfl, rfl, t.1 true sampleGroup _ rfl,
    t.2.2 sampleHost _ "qemu" true true rfl true sampleGroup _ rfl⟩

/-- Claim C4: `virCgroupAddTask group pid` attempts the membership write once for every
controller mount of the handle, in order, whatever the outcome of the earlier writes; it
succeeds exactly when no write failed, and it fails with error `e` exactly when `e` is the
error of the first mount whose write failed. -/
theorem virCgroupAddTask_continues (h : Host) (g : virCgroup) (pid : Int) :
    (virCgroupAddTask h g pid).2.log
        = h.log ++ g.mounts.map
            (fun m => attemptOf h g m ControlFile.membership (Value.task pid))
      ∧ ((virCgroupAddTask h g pid).1 = Except.ok () ↔
          ∀ m ∈ g.mounts, writeOutcome h g m ControlFile.membership (Value.task pid) = none)
      ∧ (∀ e : CgroupError, (virCgroupAddTask h g pid).1 = Except.error e ↔
          ∃ pre m post, g.mounts = pre ++ m :: post
            ∧ (∀ x ∈ pre, writeOutcome h g x ControlFile.membership (Value.task pid) = none)
            ∧ writeOutcome h g m ControlFile.membership (Value.task pid) = some e) := by
  have h1 := addTaskLoop_host g pid g.mounts none h
  have h2 : (addTaskLoop g pid g.mounts none h).1 = (taskErrors h g pid g.mounts).head? :=
    addTaskLoop_first g pid g.mounts none h
  refine ⟨?_, ?_, ?_⟩
  · simp only [virCgroupAddTask, h1, taskAttempts]
  · simp only [virCgroupAddTask, h2, resultOf_eq_ok]
    rw [List.head?_eq_none_iff]
    exact filterMap_eq_nil_iff_forall _ _
  · intro e
    simp only [virCgroupAddTask, h2]
    rw [← filterMap_head?_eq_some]
    unfold taskErrors
    cases (List.filterMap
      (fun m => writeOutcome h g m ControlFile.membership (Value.task pid)) g.mounts).head? with
    | none => simp [resultOf]
    | some e' => simp [resultOf]

/-- Witness of claim C4: on `hostWithoutDevices` the cpu write succeeds and the memory write,
on a read-only mount, fails: both are attempted and the call fails with the permission error.
On `sampleHost` every write succeeds and so does the call. -/
theorem virCgroupAddTask_continues_witness :
    (virCgroupAddTask hostWithoutDevices limitedGroup 42).1
        = Except.error CgroupError.Permission
      ∧ (virCgroupAddTask hostWithoutDevices limitedGroup 42).2.log
        = [{ root := "/cgroup/cpu", placement := ["qemu", "vm1"],
             file := ControlFile.membership, value := Value.task 42, outcome := none },
           { root := "/cgroup/memory", placement := ["qemu", "vm1"],
             file := ControlFile.membership, value := Value.task 42,
             outcome := some CgroupError.Permission }]
      ∧ (virCgroupAddTask sampleHost sampleGroup 42).1 = Except.ok () := by
  refine ⟨?_, ?_, ?_⟩
  · exact ((virCgroupAddTask_continues hostWithoutDevices limitedGroup 42).2.2
        CgroupError.Permission).2
      ⟨[⟨Controller.cpu, "/cgroup/cpu", true⟩], ⟨Controller.memory, "/cgroup/memory", false⟩, [],
        rfl, by intro x hx; rw [List.mem_singleton.1 hx]; rfl, rfl⟩
  · exact (virCgroupAddTask_continues hostWithoutDevices limitedGroup 42).1
  · refine (virCgroupAddTask_continues sampleHost sampleGroup 42).2.1.2 ?_
    intro m hm
    simp only [sampleGroup, sampleHost, List.mem_cons, List.mem_singleton, List.not_mem_nil,
      or_false] at hm
    rcases hm with rfl | rfl | rfl | rfl <;> rfl

/-- Claim C5: on a host where controller `c` is not mounted, resolving a driver cgroup and a
domain cgroup under it with `create` succeeds, and on either handle, in any later host state,
every operation that targets `c` fails with `Unsupported` and leaves the host, its write log
included, as it was: the three device operations for `devices`, `virCgroupSetMemory` for
`memory`, `virCgroupSetCpuShares` and `virCgroupGetCpuShares` for `cpu`, and
`virCgroupGetCpuacctUsage` for `cpuacct`. -/
theorem unmounted_controller_unsupported (h : Host) (driver domain : String) (privileged : Bool)
    (c : Controller) (hc : findMount h.mounts c = none) :
    ∃ (d g : virCgroup) (h₁ h₂ : Host),
      virCgroupForDriver h driver privileged true = (Except.ok d, h₁)
        ∧ virCgroupForDomain h₁ d domain true = (Except.ok g, h₂)
        ∧ ∀ x ∈ [d, g], ∀ hh : Host,
            (c = Controller.devices →
              (∀ t major minor, virCgroupAllowDevice hh x t major minor
                  = (Except.error CgroupError.Unsupported, hh))
                ∧ (∀ t major, virCgroupAllowDeviceMajor hh x t major
                  = (Except.error CgroupError.Unsupported, hh))
                ∧ virCgroupDenyAllDevices hh x = (Except.error CgroupError.Unsupported, hh))
            ∧ (c = Controller.memory →
              ∀ kb, virCgroupSetMemory hh x kb = (Except.error CgroupError.Unsupported, hh))
            ∧ (c = Controller.cpu →
              (∀ shares, virCgroupSetCpuShares hh x shares
                  = (Except.error CgroupError.Unsupported, hh))
                ∧ virCgroupGetCpuShares hh x = Except.error CgroupError.Unsupported)
            ∧ (c = Controller.cpuacct →
              virCgroupGetCpuacctUsage hh x = Except.error CgroupError.Unsupported) := by
  refine ⟨{ mounts := h.mounts, placement := [driver], created := true },
    { mounts := h.mounts, placement := [driver] ++ [domain], created := true },
    _, _, rfl, rfl, ?_⟩
  intro x hx hh
  have hmx : findMount x.mounts c = none := by
    simp only [List.mem_cons, List.mem_singleton, List.not_mem_nil, or_false] at hx
    rcases hx with rfl | rfl <;> exact hc
  refine ⟨?_, ?_, ?_, ?_⟩
  · rintro rfl
    simp [virCgroupAllowDevice, virCgroupAllowDeviceMajor, virCgroupDenyAllDevices, setValue, hmx]
  · rintro rfl
    simp [virCgroupSetMemory, setValue, hmx]
  · rintro rfl
    simp [virCgroupSetCpuShares, virCgroupGetCpuShares, setValue, getValue, hmx]
  · rintro rfl
    simp [virCgroupGetCpuacctUsage, getValue, hmx]

/-- Witness of claim C5: `hostWithoutDevices` has no devices controller; the domain handle
resolved on it rejects `virCgroupAllowDevice` with `Unsupported` and the log stays empty. -/
theorem unmounted_controller_unsupported_witness :
    (virCgroupForDomain (virCgroupForDriver hostWithoutDevices "qemu" true true).2
        { mounts := hostWithoutDevices.mounts, placement := ["qemu"], created := true }
        "vm1" true).1 = Except.ok limitedGroup
      ∧ (virCgroupAllowDevice hostWithoutDevices limitedGroup 'c' 1 3).1
          = Except.error CgroupError.Unsupported
      ∧ (virCgroupAllowDevice hostWithoutDevices limitedGroup 'c' 1 3).2.log = [] := by
  obtain ⟨d, g, h₁, h₂, hd, hg, hall⟩ :=
    unmounted_controller_unsupported hostWithoutDevices "qemu" "vm1" true Controller.devices rfl
  have hd' : d = { mounts := hostWithoutDevices.mounts, placement := ["qemu"], created := true }
      ∧ h₁ = (virCgroupForDriver hostWithoutDevices "qemu" true true).2 := by
    have := hd.symm
    simp only [virCgroupForDriver, resolve, if_true, Prod.mk.injEq, Except.ok.injEq] at this
    exact ⟨this.1, this.2⟩
  rw [hd'.1, hd'.2] at hg
  have hg' : g = limitedGroup := by
    have := hg.symm
    simp only [virCgroupForDomain, resolve, if_true, Prod.mk.injEq, Except.ok.injEq] at this
    rw [this.1]
    rfl
  have hallow := ((hall g (by simp) hostWithoutDevices).1 rfl).1 'c' 1 3
  rw [hg'] at hallow
  exact ⟨rfl, by rw [hallow], by rw [hallow]; rfl⟩

/-- Claim C6: each of the three device operations, when it succeeds, appends exactly its own
rule to the handle's device rule file and otherwise leaves the file as it was:
`virCgroupDenyAllDevices` the wildcard deny rule, `virCgroupAllowDevice type major minor` the
allow rule for that type and `major:minor`, `virCgroupAllowDeviceMajor type major` the allow
rule for that type and major with wildcard minor.  So after a sequence of calls that all succeed
the file holds the rules it held before followed by the rules of the calls, in call order; and
on a writable devices mount whose kernel accepts every rule, every call succeeds. -/
theorem device_rules_in_call_order (h : Host) (g : virCgroup) (calls : List DeviceCall) :
    (∀ (hh : Host) (c : DeviceCall),
        deviceRuleFile (c.run hh g).2 g
          = deviceRuleFile hh g ++ (if succeeded (c.run hh g).1 then [c.rule] else []))
      ∧ ((∀ r ∈ (runDeviceCalls g calls h).1, succeeded r = true) →
          deviceRuleFile (runDeviceCalls g calls h).2 g
            = deviceRuleFile h g ++ calls.map DeviceCall.rule)
      ∧ (∀ m, findMount g.mounts Controller.devices = some m → m.writable = true →
          (∀ v, h.kernel m.root g.placement ControlFile.deviceRules v = none) →
          ∀ r ∈ (runDeviceCalls g calls h).1, succeeded r = true) :=
  ⟨fun hh c => run_deviceRuleFile hh g c, runDeviceCalls_rules g calls h,
    fun m hm hw hk => runDeviceCalls_ok g m hm hw calls h hk⟩

/-- Witness of claim C6: on the sample host, `virCgroupDenyAllDevices` followed by
`virCgroupAllowDevice 'c' 1 3` leaves exactly the deny-all rule followed by the allow rule for
the character device 1:3 in the device rule file. -/
theorem device_rules_in_call_order_witness :
    deviceRuleFile
        (runDeviceCalls sampleGroup [DeviceCall.denyAll, DeviceCall.allowDevice 'c' 1 3]
          sampleHost).2 sampleGroup
      = [DeviceRule.denyAll, DeviceRule.allow 'c' 1 (some 3)] := by
  have t := device_rules_in_call_order sampleHost sampleGroup
    [DeviceCall.denyAll, DeviceCall.allowDevice 'c' 1 3]
  have hok := t.2.2 ⟨Controller.devices, "/cgroup/devices", true⟩ rfl rfl (fun _ => rfl)
  exact t.2.1 hok

end Cgroup

namespace VBox

/-! ## The claims about the VirtualBox storage driver -/

/-- Claim C2: with a connected VirtualBox object and a volume key that does not parse as a
UUID, each of `vboxStorageVolLookupByKey` (non-NULL key), `vboxStorageVolDelete` (valid flags),
`vboxStorageVolGetInfo` (non-NULL info) and `vboxStorageVolGetXMLDesc` (valid flags) returns its
failure value (NULL or -1) after a single call: the report of `VIR_ERR_INVALID_ARG`.
`GetHardDiskByIID` is not called and the caller's info is returned as it was given. -/
theorem invalid_key_is_invalid_argument (w : VBoxWorld) (vol : virStorageVol)
    (info : virStorageVolInfo) (flags : Nat) (hobj : w.vboxObj = true)
    (hflags : virCheckFlags 0 flags = true) (hkey : w.virUUIDParse vol.key = none) :
    vboxStorageVolLookupByKey w (some vol.key)
        = (none, [Call.virReportError virErrorNumber.VIR_ERR_INVALID_ARG
                    "Could not parse UUID from '%s'"])
      ∧ vboxStorageVolDelete w vol flags
        = (-1, [Call.virReportError virErrorNumber.VIR_ERR_INVALID_ARG
                  "Could not parse UUID from '%s'"])
      ∧ vboxStorageVolGetInfo w vol (some info)
        = (-1, some info, [Call.virReportError virErrorNumber.VIR_ERR_INVALID_ARG
                             "Could not parse UUID from '%s'"])
      ∧ vboxStorageVolGetXMLDesc w vol flags
        = (none, [Call.virReportError virErrorNumber.VIR_ERR_INVALID_ARG
                    "Could not parse UUID from '%s'"])
      ∧ (∀ iid, Call.GetHardDiskByIID iid ∉ (vboxStorageVolLookupByKey w (some vol.key)).2
          ∧ Call.GetHardDiskByIID iid ∉ (vboxStorageVolDelete w vol flags).2
          ∧ Call.GetHardDiskByIID iid ∉ (vboxStorageVolGetInfo w vol (some info)).2.2
          ∧ Call.GetHardDiskByIID iid ∉ (vboxStorageVolGetXMLDesc w vol flags).2) := by
  have h1 : vboxStorageVolLookupByKey w (some vol.key) = (none, [uuidError]) := by
    simp [vboxStorageVolLookupByKey, hobj, hkey]
  have h2 : vboxStorageVolDelete w vol flags = (-1, [uuidError]) := by
    simp [vboxStorageVolDelete, hobj, hflags, hkey]
  have h3 : vboxStorageVolGetInfo w vol (some info) = (-1, some info, [uuidError]) := by
    simp [vboxStorageVolGetInfo, hobj, hkey]
  have h4 : vboxStorageVolGetXMLDesc w vol flags = (none, [uuidError]) := by
    simp [vboxStorageVolGetXMLDesc, hobj, hflags, hkey]
  refine ⟨h1, h2, h3, h4, ?_⟩
  intro iid
  rw [h1, h2, h3, h4]
  simp [uuidError]

/-- Witness of claim C2: the key `not-a-uuid` in the sample world, with flags 0. -/
theorem invalid_key_is_invalid_argument_witness :
    vboxStorageVolDelete (worldWith [goodMachine]) badVol 0
        = (-1, [Call.virReportError virErrorNumber.VIR_ERR_INVALID_ARG
                  "Could not parse UUID from '%s'"])
      ∧ vboxStorageVolGetInfo (worldWith [goodMachine]) badVol
          (some { type := virStorageVolType.VIR_STORAGE_VOL_BLOCK, capacity := 7,
                  allocation := 5 })
        = (-1, some { type := virStorageVolType.VIR_STORAGE_VOL_BLOCK, capacity := 7,
                      allocation := 5 },
           [Call.virReportError virErrorNumber.VIR_ERR_INVALID_ARG
              "Could not parse UUID from '%s'"]) :=
  have t := invalid_key_is_invalid_argument (worldWith [goodMachine]) badVol
    { type := virStorageVolType.VIR_STORAGE_VOL_BLOCK, capacity := 7, allocation := 5 } 0
    rfl (by decide) (by decide)
  ⟨t.2.1, t.2.2.1⟩

/-- Claim C7: `vboxConnectNumOfStoragePools` is 1, and `vboxConnectListStoragePools` never
returns more: for `nnames > 0`, when the string duplication succeeds, it returns 1 and stores
`default-pool` in `names[0]`, every other entry staying as it was; for `nnames <= 0` it returns
0 and leaves `names` as it was. -/
theorem one_storage_pool (w : VBoxWorld) (names : List (Option String)) (nnames : Int) :
    vboxConnectNumOfStoragePools = 1
      ∧ (vboxConnectListStoragePools w names nnames).1 ≤ vboxConnectNumOfStoragePools
      ∧ (0 < nnames → w.VIR_STRDUP "default-pool" = true →
          (vboxConnectListStoragePools w names nnames).1 = 1
            ∧ (vboxConnectListStoragePools w names nnames).2
                = names.set 0 (some "default-pool")
            ∧ (names ≠ [] →
                (vboxConnectListStoragePools w names nnames).2[0]?
                  = some (some "default-pool"))
            ∧ (∀ i, i ≠ 0 →
                (vboxConnectListStoragePools w names nnames).2[i]? = names[i]?))
      ∧ (nnames ≤ 0 → vboxConnectListStoragePools w names nnames = (0, names)) := by
  refine ⟨rfl, ?_, ?_, ?_⟩
  · unfold vboxConnectListStoragePools vboxConnectNumOfStoragePools
    by_cases hn : nnames > 0 <;> by_cases hd : w.VIR_STRDUP "default-pool" = true <;>
      simp [hn, hd]
  · intro hn hd
    have hrun : vboxConnectListStoragePools w names nnames
        = (1, names.set 0 (some "default-pool")) := by
      simp [vboxConnectListStoragePools, hn, hd]
    rw [hrun]
    refine ⟨rfl, rfl, ?_, ?_⟩
    · intro hne
      cases names with
      | nil => exact absurd rfl hne
      | cons a l => simp
    · intro i hi
      exact List.getElem?_set_ne (Ne.symm hi)
  · intro hn
    have : ¬ nnames > 0 := not_lt.mpr hn
    simp [vboxConnectListStoragePools, this]

/-- Witness of claim C7: a three-entry array with `nnames = 3`, and the same array with
`nnames = 0`. -/
theorem one_storage_pool_witness :
    vboxConnectListStoragePools (worldWith []) [none, some "x", none] 3
        = (1, [some "default-pool", some "x", none])
      ∧ vboxConnectListStoragePools (worldWith []) [none, some "x", none] 0
        = (0, [none, some "x", none]) :=
  have t := one_storage_pool (worldWith []) [none, some "x", none]
  ⟨Prod.ext ((t 3).2.2.1 (by decide) rfl).1 ((t 3).2.2.1 (by decide) rfl).2.1,
    (t 0).2.2.2 (by decide)⟩

/-- Counterexample to claim C8 as stated: when `virGetStoragePool` returns NULL,
`vboxStoragePoolLookupByName` returns NULL for the name `default-pool` too, so a pool is not
returned for every request of that name, and the name `vboxConnectListStoragePools` lists is
not resolved; and when the ignored `virUUIDParse` fails, the pool carries the bytes left in the
buffer, not those of the fixed UUID. -/
theorem lookup_returns_helper_null :
    vboxStoragePoolLookupByName poolLessWorld "default-pool" = none
      ∧ ¬ (vboxStoragePoolLookupByName poolLessWorld "default-pool" ≠ none
            ↔ "default-pool" = "default-pool")
      ∧ (vboxConnectListStoragePools poolLessWorld [none] 1).2 = [some "default-pool"]
      ∧ vboxStoragePoolLookupByName unparsedWorld "default-pool"
          = some { name := "default-pool", uuid := [0] } := by
  decide

/-- Claim C8, amended: for every name other than `default-pool` (compared case-sensitively)
`vboxStoragePoolLookupByName` returns NULL, and for `default-pool` it returns what
`virGetStoragePool` returns for that name and the parsed UUID, NULL included; both without any
assumption.  When `virUUIDParse` reads the fixed string as the bytes `u` and
`virGetStoragePool` builds the object it is asked for, the lookup returns a pool exactly for
the name `default-pool`; that pool carries the name `default-pool` and the UUID `u` on every
call; and the name `vboxConnectListStoragePools` stores in `names[0]` is resolved by the
lookup. -/
theorem default_pool_lookup (w : VBoxWorld) (name : String) (u : UUID)
    (hparse : w.virUUIDParse "1deff1ff-1481-464f-967f-a50fe8936cc4" = some u)
    (hget : ∀ n u', w.virGetStoragePool n u' = some { name := n, uuid := u' }) :
    (vboxStoragePoolLookupByName w name ≠ none ↔ name = "default-pool")
      ∧ vboxStoragePoolLookupByName w "default-pool"
          = some { name := "default-pool", uuid := u }
      ∧ (∀ (w' : VBoxWorld) (other : String), other ≠ "default-pool" →
          vboxStoragePoolLookupByName w' other = none)
      ∧ (∀ (names : List (Option String)) (nnames : Int), 0 < nnames → names ≠ [] →
          w.VIR_STRDUP "default-pool" = true →
          ∃ listed, (vboxConnectListStoragePools w names nnames).2[0]? = some (some listed)
            ∧ vboxStoragePoolLookupByName w listed = some { name := listed, uuid := u })
      ∧ (∀ w' : VBoxWorld, vboxStoragePoolLookupByName w' "default-pool"
          = w'.virGetStoragePool "default-pool"
              ((w'.virUUIDParse "1deff1ff-1481-464f-967f-a50fe8936cc4").getD w'.uuidBuffer)) := by
  have hdef : vboxStoragePoolLookupByName w "default-pool"
      = some { name := "default-pool", uuid := u } := by
    simp [vboxStoragePoolLookupByName, hparse, hget]
  have hother : ∀ (w' : VBoxWorld) (other : String), other ≠ "default-pool" →
      vboxStoragePoolLookupByName w' other = none := by
    intro w' other hne
    have : ¬ "default-pool" = other := fun h => hne h.symm
    simp [vboxStoragePoolLookupByName, this]
  refine ⟨?_, hdef, hother, ?_, ?_⟩
  · constructor
    · intro hne
      by_contra hn
      exact hne (hother w name hn)
    · rintro rfl
      rw [hdef]
      simp
  · intro names nnames hn hne hd
    refine ⟨"default-pool", ?_, hdef⟩
    have hrun : vboxConnectListStoragePools w names nnames
        = (1, names.set 0 (some "default-pool")) := by
      simp [vboxConnectListStoragePools, hn, hd]
    rw [hrun]
    cases names with
    | nil => exact absurd rfl hne
    | cons a l => simp
  · intro w'
    simp [vboxStoragePoolLookupByName]

/-- Witness of claim C8, amended: in the sample world the default pool carries the sixteen bytes of
`1deff1ff-1481-464f-967f-a50fe8936cc4`, and the name in another case is not found. -/
theorem default_pool_lookup_witness :
    vboxStoragePoolLookupByName (worldWith []) "default-pool"
        = some { name := "default-pool",
                 uuid := [0x1d, 0xef, 0xf1, 0xff, 0x14, 0x81, 0x46, 0x4f, 0x96, 0x7f, 0xa5,
                          0x0f, 0xe8, 0x93, 0x6c, 0xc4] }
      ∧ vboxStoragePoolLookupByName (worldWith []) "Default-Pool" = none :=
  have t := default_pool_lookup (worldWith []) "Default-Pool"
    [0x1d, 0xef, 0xf1, 0xff, 0x14, 0x81, 0x46, 0x4f, 0x96, 0x7f, 0xa5, 0x0f, 0xe8, 0x93,
     0x6c, 0xc4] (by decide) (fun _ _ => rfl)
  ⟨t.2.1, t.2.2.1 (worldWith []) "Default-Pool" (by decide)⟩

theorem createStorage_trace (w : VBoxWorld) (poolName name : String) (d : virStorageVolDef)
    (format16 name16 : String) :
    ∃ rest, (createStorage w poolName name d format16 name16).2
        = Call.CreateHardDisk format16 name16 :: rest
      ∧ (∀ disk, w.CreateHardDisk format16 name16 = some disk →
          (Call.CreateHardDisk format16 name16 :: rest)[1]?
            = some (Call.CreateBaseStorage (VIR_DIV_UP d.target_capacity (1024 * 1024))
                (hddVariant d.target_capacity d.target_allocation)))
      ∧ (∀ c ∈ rest, (∀ f l, c ≠ Call.CreateHardDisk f l)
          ∧ (∀ n v, c = Call.CreateBaseStorage n v →
              v = hddVariant d.target_capacity d.target_allocation)) := by
  unfold createStorage
  cases hc : w.CreateHardDisk format16 name16 with
  | none => exact ⟨_, rfl, by simp, by simp⟩
  | some hardDisk =>
    simp only
    cases hb : hardDisk.CreateBaseStorage (VIR_DIV_UP d.target_capacity (1024 * 1024))
        (hddVariant d.target_capacity d.target_allocation) with
    | none => exact ⟨_, rfl, by simp, by simp⟩
    | some o =>
      cases o with
      | none => exact ⟨_, rfl, by simp, by simp⟩
      | some progress =>
        simp only
        cases hf : progress.failed with
        | true => exact ⟨_, rfl, by simp, by simp⟩
        | false =>
          cases hi : hardDisk.GetId with
          | none => exact ⟨_, rfl, by simp, by simp⟩
          | some uuid => exact ⟨_, rfl, by simp, by simp⟩

theorem createXML_trace (w : VBoxWorld) (poolName xml : String) (flags : Nat) :
    (vboxStorageVolCreateXML w poolName xml flags).2 = []
      ∨ (vboxStorageVolCreateXML w poolName xml flags).2 = [flagsError]
      ∨ ∃ d name p, w.virStorageVolDefParseString xml = some d
          ∧ vboxStorageVolCreateXML w poolName xml flags
              = createStorage w poolName name d (hddFormat d.target_format) p := by
  unfold vboxStorageVolCreateXML
  by_cases hobj : w.vboxObj = true
  swap
  · left; simp [hobj]
  by_cases hflags : virCheckFlags 0 flags = true
  swap
  · right; left; simp [hobj, hflags]
  simp only [hobj, hflags, Bool.not_true, Bool.false_eq_true, if_false]
  cases hparse : w.virStorageVolDefParseString xml with
  | none => left; rfl
  | some d =>
    simp only
    cases hname : d.name with
    | none => left; rfl
    | some name =>
      simp only
      by_cases htype : d.type = virStorageVolType.VIR_STORAGE_VOL_FILE
      swap
      · left; simp [htype]
      simp only [htype, ne_eq, not_true_eq_false, if_false]
      cases hpath : (match d.target_path with
        | some p => some p
        | none => w.virAsprintf (w.virGetUserDirectory ++ "/.VirtualBox/" ++ name)) with
      | none => left; rfl
      | some p =>
        simp only [VBOX_UTF8_TO_UTF16]
        by_cases hf : w.utf16Alloc (hddFormat d.target_format) = true
        swap
        · left; simp [hf]
        by_cases hp : w.utf16Alloc p = true
        swap
        · left; simp [hf, hp]
        right; right
        exact ⟨d, name, p, rfl, by simp [hf, hp]⟩

/-- Claim C9: in every run of `vboxStorageVolCreateXML`, a `CreateHardDisk` call carries the
format name chosen from the parsed volume's target format, `VMDK` for
`VIR_STORAGE_FILE_VMDK`, `VHD` for `VIR_STORAGE_FILE_VPC` and `VDI` for every other format, and
a `CreateBaseStorage` call carries the variant Fixed exactly when target capacity equals target
allocation and Standard otherwise.  No format is rejected: once the definition is parsed with a
name and the file type, the path is known and the two strings convert, `CreateHardDisk` is the
first call made, and when it gives a disk `CreateBaseStorage` is the second. -/
theorem create_format_and_variant (w : VBoxWorld) (poolName xml : String) (flags : Nat) :
    (hddFormat virStorageFileFormat.VIR_STORAGE_FILE_VMDK = "VMDK"
        ∧ hddFormat virStorageFileFormat.VIR_STORAGE_FILE_VPC = "VHD"
        ∧ ∀ f, f ≠ virStorageFileFormat.VIR_STORAGE_FILE_VMDK →
            f ≠ virStorageFileFormat.VIR_STORAGE_FILE_VPC → hddFormat f = "VDI")
      ∧ (∀ capacity allocation,
          (hddVariant capacity allocation = HardDiskVariant.HardDiskVariant_Fixed
              ↔ capacity = allocation)
            ∧ (hddVariant capacity allocation = HardDiskVariant.HardDiskVariant_Standard
              ↔ capacity ≠ allocation))
      ∧ (∀ format location,
          Call.CreateHardDisk format location ∈ (vboxStorageVolCreateXML w poolName xml flags).2 →
          ∃ d, w.virStorageVolDefParseString xml = some d ∧ format = hddFormat d.target_format)
      ∧ (∀ logicalSize variant,
          Call.CreateBaseStorage logicalSize variant
            ∈ (vboxStorageVolCreateXML w poolName xml flags).2 →
          ∃ d, w.virStorageVolDefParseString xml = some d
            ∧ variant = hddVariant d.target_capacity d.target_allocation)
      ∧ (∀ (d : virStorageVolDef) (name path : String),
          w.vboxObj = true → virCheckFlags 0 flags = true →
          w.virStorageVolDefParseString xml = some d → d.name = some name →
          d.type = virStorageVolType.VIR_STORAGE_VOL_FILE →
          (match d.target_path with
            | some p => some p
            | none => w.virAsprintf (w.virGetUserDirectory ++ "/.VirtualBox/" ++ name))
            = some path →
          w.utf16Alloc (hddFormat d.target_format) = true → w.utf16Alloc path = true →
          (vboxStorageVolCreateXML w poolName xml flags).2[0]?
              = some (Call.CreateHardDisk (hddFormat d.target_format) path)
            ∧ ∀ disk, w.CreateHardDisk (hddFormat d.target_format) path = some disk →
                (vboxStorageVolCreateXML w poolName xml flags).2[1]?
                  = some (Call.CreateBaseStorage
                      (VIR_DIV_UP d.target_capacity (1024 * 1024))
                      (hddVariant d.target_capacity d.target_allocation))) := by
  refine ⟨⟨rfl, rfl, ?_⟩, ?_, ?_, ?_, ?_⟩
  · intro f h1 h2
    simp [hddFormat, h1, h2]
  · intro capacity allocation
    by_cases h : capacity = allocation <;> simp [hddVariant, h]
  · intro format location hmem
    rcases createXML_trace w poolName xml flags with h | h | ⟨d, name, p, hparse, hrun⟩
    · rw [h] at hmem; cases hmem
    · rw [h] at hmem; simp [flagsError] at hmem
    · refine ⟨d, hparse, ?_⟩
      obtain ⟨rest, htrace, -, hrest⟩ :=
        createStorage_trace w poolName name d (hddFormat d.target_format) p
      rw [hrun, htrace] at hmem
      rcases List.mem_cons.1 hmem with heq | hin
      · cases heq; rfl
      · exact absurd rfl ((hrest _ hin).1 format location)
  · intro logicalSize variant hmem
    rcases createXML_trace w poolName xml flags with h | h | ⟨d, name, p, hparse, hrun⟩
    · rw [h] at hmem; cases hmem
    · rw [h] at hmem; simp [flagsError] at hmem
    · refine ⟨d, hparse, ?_⟩
      obtain ⟨rest, htrace, -, hrest⟩ :=
        createStorage_trace w poolName name d (hddFormat d.target_format) p
      rw [hrun, htrace] at hmem
      rcases List.mem_cons.1 hmem with heq | hin
      · cases heq
      · exact (hrest _ hin).2 logicalSize variant rfl
  · intro d name path hobj hflags hparse hname htype hpath hf hp
    have hrun : vboxStorageVolCreateXML w poolName xml flags
        = createStorage w poolName name d (hddFormat d.target_format) path := by
      unfold vboxStorageVolCreateXML
      simp only [hobj, hflags, hparse, hname, htype, hpath, VBOX_UTF8_TO_UTF16, hf, hp]
      simp
    obtain ⟨rest, htrace, hsecond, -⟩ :=
      createStorage_trace w poolName name d (hddFormat d.target_format) path
    rw [hrun, htrace]
    exact ⟨List.getElem?_cons_zero, hsecond⟩

/-- Witness of claim C9: in the sample world the parsed volume is a vmdk with capacity equal
to allocation; the disk is created as `VMDK` and its storage as Fixed, one MiB large. -/
theorem create_format_and_variant_witness :
    (vboxStorageVolCreateXML (worldWith []) "default-pool" "<volume/>" 0).2[0]?
        = some (Call.CreateHardDisk "VMDK" "/images/disk.vmdk")
      ∧ (vboxStorageVolCreateXML (worldWith []) "default-pool" "<volume/>" 0).2[1]?
        = some (Call.CreateBaseStorage 1 HardDiskVariant.HardDiskVariant_Fixed) :=
  have t := (create_format_and_variant (worldWith []) "default-pool" "<volume/>" 0).2.2.2.2
    sampleVolDef "disk.vmdk" "/images/disk.vmdk" rfl (by decide) rfl rfl rfl rfl rfl rfl
  ⟨t.1, t.2 _ rfl⟩

/-! ## The scan of `vboxStorageVolDelete` -/

theorem sessionOpens_append (t₁ t₂ : List Call) :
    sessionOpens (t₁ ++ t₂) = sessionOpens t₁ ++ sessionOpens t₂ := by
  simp [sessionOpens, List.filterMap_append]

theorem mediaFetched_append (t₁ t₂ : List Call) :
    mediaFetched (t₁ ++ t₂) = mediaFetched t₁ ++ mediaFetched t₂ := by
  simp [mediaFetched, List.filterMap_append]

theorem attachmentStep_reads (hddIID : UUID) (machine : IMachine)
    (att : Option IMediumAttachment) (d : Nat) :
    sessionOpens (attachmentStep hddIID machine att d).2 = []
      ∧ mediaFetched (attachmentStep hddIID machine att d).2 = att.toList := by
  unfold attachmentStep
  cases att with
  | none => exact ⟨rfl, rfl⟩
  | some a =>
    simp only
    cases hm : a.GetMedium with
    | none => exact ⟨rfl, rfl⟩
    | some o =>
      cases o with
      | none => exact ⟨rfl, rfl⟩
      | some hdd =>
        simp only
        cases hi : hdd.GetId with
        | none => exact ⟨rfl, rfl⟩
        | some iid =>
          simp only
          by_cases he : hddIID = iid
          · by_cases hd : a.DetachDevice = true
            · simp only [he, hd, if_true]; exact ⟨rfl, rfl⟩
            · simp only [he, hd, if_true, if_false]; exact ⟨rfl, rfl⟩
          · simp only [he, if_false]; exact ⟨rfl, rfl⟩

theorem attachmentLoop_reads (hddIID : UUID) (machine : IMachine)
    (atts : List (Option IMediumAttachment)) :
    ∀ d : Nat, sessionOpens (attachmentLoop hddIID machine atts d).2 = []
      ∧ mediaFetched (attachmentLoop hddIID machine atts d).2 = atts.filterMap id := by
  induction atts with
  | nil => intro d; exact ⟨rfl, rfl⟩
  | cons att rest ih =>
    intro d
    simp only [attachmentLoop, sessionOpens_append, mediaFetched_append]
    rw [(attachmentStep_reads hddIID machine att d).1,
      (attachmentStep_reads hddIID machine att d).2, (ih _).1, (ih _).2]
    cases att <;> simp

theorem machineStep_reads (w : VBoxWorld) (hddIID : UUID) (machine : IMachine) (d : Nat)
    (hg : (w.getMachineForSession && !machine.GetMachine) = false) :
    (machineStep w hddIID machine d).1 = false
      ∧ sessionOpens (machineStep w hddIID machine d).2.2 = [machine.id]
      ∧ mediaFetched (machineStep w hddIID machine d).2.2
          = if (machine.Open && machine.SessionGetMachine) = true
            then machine.attachments.filterMap id else [] := by
  unfold machineStep
  simp only [hg, Bool.false_eq_true, if_false]
  have hpre : sessionOpens (if w.getMachineForSession = true
      then [Call.GetMachine machine.id] else []) = []
      ∧ mediaFetched (if w.getMachineForSession = true
      then [Call.GetMachine machine.id] else []) = [] := by
    cases w.getMachineForSession <;> exact ⟨rfl, rfl⟩
  cases ho : machine.Open with
  | false =>
    simp only [Bool.not_false, if_true, sessionOpens_append, mediaFetched_append, hpre.1, hpre.2]
    exact ⟨trivial, rfl, rfl⟩
  | true =>
    cases hs : machine.SessionGetMachine with
    | false =>
      simp only [Bool.not_true, Bool.false_eq_true, if_false, Bool.not_false, if_true,
        sessionOpens_append, mediaFetched_append, hpre.1, hpre.2]
      exact ⟨trivial, rfl, rfl⟩
    | true =>
      simp only [Bool.not_true, Bool.false_eq_true, if_false, sessionOpens_append,
        mediaFetched_append, hpre.1, hpre.2,
        (attachmentLoop_reads hddIID machine machine.attachments d).1,
        (attachmentLoop_reads hddIID machine machine.attachments d).2]
      refine ⟨trivial, ?_, ?_⟩
      · simp [sessionOpens]
      · simp [mediaFetched]

theorem machineLoop_reads (w : VBoxWorld) (hddIID : UUID) (ms : List IMachine) :
    ∀ d : Nat, (∀ m ∈ ms, (w.getMachineForSession && !m.GetMachine) = false) →
      sessionOpens (machineLoop w hddIID ms d).2 = ms.map (fun m => m.id)
        ∧ mediaFetched (machineLoop w hddIID ms d).2 = openedAttachments ms := by
  induction ms with
  | nil => intro d _; exact ⟨rfl, rfl⟩
  | cons m rest ih =>
    intro d hall
    have hm := machineStep_reads w hddIID m d (hall m (List.mem_cons_self _ _))
    have hrest := ih (machineStep w hddIID m d).2.1
      (fun x hx => hall x (List.mem_cons_of_mem _ hx))
    simp only [machineLoop, hm.1, Bool.false_eq_true, if_false, sessionOpens_append,
      mediaFetched_append, hm.2.1, hm.2.2, hrest.1, hrest.2]
    refine ⟨rfl, ?_⟩
    by_cases ho : (m.Open && m.SessionGetMachine) = true
    · simp [openedAttachments, List.filter_cons, ho]
    · simp [openedAttachments, List.filter_cons, ho]

theorem machineLoop_stops (w : VBoxWorld) (hddIID : UUID) (pre : List IMachine) (m : IMachine)
    (post : List IMachine) (hbreak : (w.getMachineForSession && !m.GetMachine) = true) :
    ∀ d : Nat, (∀ x ∈ pre, (w.getMachineForSession && !x.GetMachine) = false) →
      (machineLoop w hddIID (pre ++ m :: post) d).2
        = (machineLoop w hddIID pre d).2
            ++ [Call.GetMachine m.id,
                Call.virReportError virErrorNumber.VIR_ERR_NO_DOMAIN
                  "no domain with matching uuid"] := by
  induction pre with
  | nil =>
    intro d _
    simp [machineLoop, machineStep, hbreak]
  | cons x rest ih =>
    intro d hall
    have hx := machineStep_reads w hddIID x d (hall x (List.mem_cons_self _ _))
    have hrest := ih (machineStep w hddIID x d).2.1
      (fun y hy => hall y (List.mem_cons_of_mem _ hy))
    simp only [List.cons_append, machineLoop, hx.1, Bool.false_eq_true, if_false,
      List.append_eq, hrest, List.append_assoc]

theorem delete_run (w : VBoxWorld) (vol : virStorageVol) (flags : Nat) (uuid : UUID)
    (hardDisk : IHardDisk) (hobj : w.vboxObj = true) (hflags : virCheckFlags 0 flags = true)
    (hkey : w.virUUIDParse vol.key = some uuid) (hdisk : w.GetHardDiskByIID uuid = some hardDisk)
    (hstate : hardDisk.GetState ≠ MediaState.MediaState_Inaccessible) :
    vboxStorageVolDelete w vol flags
      = if hardDisk.machineIds.length % 2 ^ 32 = 0
            ∨ hardDisk.machineIds.length % 2 ^ 32
                = (machineLoop w uuid hardDisk.machineIds 0).1 % 2 ^ 32 then
          match hardDisk.DeleteStorage with
          | some (some _) =>
            (0, [Call.GetHardDiskByIID uuid] ++ (machineLoop w uuid hardDisk.machineIds 0).2
                  ++ [Call.DeleteStorage, Call.WaitForCompletion])
          | _ => (-1, [Call.GetHardDiskByIID uuid]
                  ++ (machineLoop w uuid hardDisk.machineIds 0).2 ++ [Call.DeleteStorage])
        else
          (-1, [Call.GetHardDiskByIID uuid] ++ (machineLoop w uuid hardDisk.machineIds 0).2) := by
  unfold vboxStorageVolDelete
  simp only [hobj, hflags, hkey, hdisk, hstate, Bool.not_true, Bool.false_eq_true, if_false]

theorem delete_trace (w : VBoxWorld) (vol : virStorageVol) (flags : Nat) (uuid : UUID)
    (hardDisk : IHardDisk) (hobj : w.vboxObj = true) (hflags : virCheckFlags 0 flags = true)
    (hkey : w.virUUIDParse vol.key = some uuid) (hdisk : w.GetHardDiskByIID uuid = some hardDisk)
    (hstate : hardDisk.GetState ≠ MediaState.MediaState_Inaccessible) :
    ∃ tail, (vboxStorageVolDelete w vol flags).2
        = [Call.GetHardDiskByIID uuid] ++ (machineLoop w uuid hardDisk.machineIds 0).2 ++ tail
      ∧ sessionOpens tail = [] ∧ mediaFetched tail = [] := by
  rw [delete_run w vol flags uuid hardDisk hobj hflags hkey hdisk hstate]
  split
  · split
    · exact ⟨[Call.DeleteStorage, Call.WaitForCompletion], rfl, rfl, rfl⟩
    · exact ⟨[Call.DeleteStorage], rfl, rfl, rfl⟩
  · exact ⟨[], by simp, rfl, rfl⟩

/-- Counterexample to claim C10 as stated: the disk is used by two machines and `GetMachine`
fails for the first; the scan ends there, no call at all is made for the second machine, and
the function returns -1. -/
theorem getMachine_failure_stops_scan :
    vboxStorageVolDelete (worldWith [lostMachine, goodMachine]) diskVol 0
        = (-1, [Call.GetHardDiskByIID diskUUID, Call.GetMachine lostMachine.id,
                Call.virReportError virErrorNumber.VIR_ERR_NO_DOMAIN
                  "no domain with matching uuid"])
      ∧ goodMachine ∈ (diskUsedBy [lostMachine, goodMachine]).machineIds
      ∧ examined (vboxStorageVolDelete (worldWith [lostMachine, goodMachine]) diskVol 0).2
            goodMachine = false := by
  have hrun : vboxStorageVolDelete (worldWith [lostMachine, goodMachine]) diskVol 0
      = (-1, [Call.GetHardDiskByIID diskUUID, Call.GetMachine lostMachine.id,
              Call.virReportError virErrorNumber.VIR_ERR_NO_DOMAIN
                "no domain with matching uuid"]) := by decide
  refine ⟨hrun, by decide, ?_⟩
  rw [hrun]
  decide

/-- Claim C10, amended: when the disk is found and accessible, no failure other than a failed
`GetMachine` stops the scan.  If `GetMachine` is not made or succeeds for every machine id,
then whatever the sessions, attachments, `GetMedium`, `GetId` and `DetachDevice` calls
answer, a session open is attempted for every machine id, once and in order, and the medium of
every non-NULL attachment of every machine whose session opened and gave its machine is
fetched, once and in order.  A failed `GetMachine` reports `VIR_ERR_NO_DOMAIN` and ends the
scan at that machine.  In both cases the function returns only after the scan, with 0 or -1:
0 exactly when the counter test passes and `DeleteStorage` gives a progress. -/
theorem delete_scan_continues (w : VBoxWorld) (vol : virStorageVol) (flags : Nat) (uuid : UUID)
    (hardDisk : IHardDisk) (hobj : w.vboxObj = true) (hflags : virCheckFlags 0 flags = true)
    (hkey : w.virUUIDParse vol.key = some uuid) (hdisk : w.GetHardDiskByIID uuid = some hardDisk)
    (hstate : hardDisk.GetState ≠ MediaState.MediaState_Inaccessible) :
    ((w.getMachineForSession = false ∨ ∀ m ∈ hardDisk.machineIds, m.GetMachine = true) →
        sessionOpens (vboxStorageVolDelete w vol flags).2
            = hardDisk.machineIds.map (fun m => m.id)
          ∧ mediaFetched (vboxStorageVolDelete w vol flags).2
            = openedAttachments hardDisk.machineIds)
      ∧ (∀ (pre : List IMachine) (m : IMachine) (post : List IMachine),
          hardDisk.machineIds = pre ++ m :: post → w.getMachineForSession = true →
          (∀ x ∈ pre, x.GetMachine = true) → m.GetMachine = false →
          sessionOpens (vboxStorageVolDelete w vol flags).2 = pre.map (fun x => x.id)
            ∧ mediaFetched (vboxStorageVolDelete w vol flags).2 = openedAttachments pre
            ∧ Call.virReportError virErrorNumber.VIR_ERR_NO_DOMAIN "no domain with matching uuid"
                ∈ (vboxStorageVolDelete w vol flags).2)
      ∧ ((vboxStorageVolDelete w vol flags).1 = 0 ∨ (vboxStorageVolDelete w vol flags).1 = -1)
      ∧ ((vboxStorageVolDelete w vol flags).1 = 0 ↔
          (hardDisk.machineIds.length % 2 ^ 32 = 0
              ∨ hardDisk.machineIds.length % 2 ^ 32
                  = (machineLoop w uuid hardDisk.machineIds 0).1 % 2 ^ 32)
            ∧ ∃ progress, hardDisk.DeleteStorage = some (some progress)) := by
  obtain ⟨tail, htrace, htail1, htail2⟩ :=
    delete_trace w vol flags uuid hardDisk hobj hflags hkey hdisk hstate
  have hhead1 : sessionOpens [Call.GetHardDiskByIID uuid] = [] := rfl
  have hhead2 : mediaFetched [Call.GetHardDiskByIID uuid] = [] := rfl
  refine ⟨?_, ?_, ?_, ?_⟩
  · intro hno
    have hall : ∀ m ∈ hardDisk.machineIds,
        (w.getMachineForSession && !m.GetMachine) = false := by
      intro m hm
      rcases hno with h | h
      · simp [h]
      · simp [h m hm]
    have hloop := machineLoop_reads w uuid hardDisk.machineIds 0 hall
    rw [htrace]
    simp only [sessionOpens_append, mediaFetched_append, hhead1, hhead2, htail1, htail2,
      hloop.1, hloop.2, List.nil_append, List.append_nil]
    exact ⟨trivial, trivial⟩
  · intro pre m post hsplit hg hpre hm
    have hall : ∀ x ∈ pre, (w.getMachineForSession && !x.GetMachine) = false := by
      intro x hx
      simp [hpre x hx]
    have hbreak : (w.getMachineForSession && !m.GetMachine) = true := by simp [hg, hm]
    have hstop := machineLoop_stops w uuid pre m post hbreak 0 hall
    have hloop := machineLoop_reads w uuid pre 0 hall
    rw [htrace, hsplit, hstop]
    simp only [sessionOpens_append, mediaFetched_append, hhead1, hhead2, htail1, htail2,
      hloop.1, hloop.2, List.nil_append, List.append_nil]
    refine ⟨?_, ?_, ?_⟩
    · simp [sessionOpens]
    · simp [mediaFetched]
    · simp
  · rw [delete_run w vol flags uuid hardDisk hobj hflags hkey hdisk hstate]
    split
    · split
      · left; rfl
      · right; rfl
    · right; rfl
  · rw [delete_run w vol flags uuid hardDisk hobj hflags hkey hdisk hstate]
    split
    · rename_i hcond
      split
      · rename_i p hp
        exact ⟨fun _ => ⟨hcond, p, hp⟩, fun _ => rfl⟩
      · rename_i hnp
        simp only [hcond, true_and]
        constructor
        · intro h; cases h
        · rintro ⟨p, hp⟩
          exact absurd hp (hnp p)
    · rename_i hcond
      simp only [hcond, false_and, iff_false]
      intro h; cases h

/-- Witness of claim C10, amended: the session of the first machine cannot be opened; the scan
goes on to the second machine, fetches the medium of its attachment, and the function returns
-1 after the scan because only one of the two machines gave up the disk. -/
theorem delete_scan_continues_witness :
    sessionOpens (vboxStorageVolDelete (worldWith [busyMachine, goodMachine]) diskVol 0).2
        = [busyMachine.id, goodMachine.id]
      ∧ mediaFetched (vboxStorageVolDelete (worldWith [busyMachine, goodMachine]) diskVol 0).2
        = [diskAttachment]
      ∧ (vboxStorageVolDelete (worldWith [busyMachine, goodMachine]) diskVol 0).1 = -1 := by
  have t := delete_scan_continues (worldWith [busyMachine, goodMachine]) diskVol 0 diskUUID
    (diskUsedBy [busyMachine, goodMachine]) rfl (by decide) (by decide) (by decide) (by decide)
  have hscan := t.1 (Or.inr (by decide))
  refine ⟨hscan.1, hscan.2, ?_⟩
  rcases t.2.2.1 with h0 | h1
  · exact absurd (t.2.2.2.1 h0).1 (by decide)
  · exact h1

/-! ## The detach counter -/

theorem attachmentStep_counts (hddIID : UUID) (machine : IMachine)
    (att : Option IMediumAttachment) (d : Nat) :
    (attachmentStep hddIID machine att d).1 = d + (if detaches hddIID att then 1 else 0)
      ∧ Call.DeleteStorage ∉ (attachmentStep hddIID machine att d).2
      ∧ (detaches hddIID att = true →
          Call.SaveSettings machine.id ∈ (attachmentStep hddIID machine att d).2) := by
  unfold attachmentStep detaches
  cases att with
  | none => simp
  | some a =>
    obtain ⟨medium, controller, port, device, detach⟩ := a
    cases medium with
    | none => simp
    | some o =>
      cases o with
      | none => simp
      | some hdd =>
        obtain ⟨getId⟩ := hdd
        cases getId with
        | none => simp
        | some iid =>
          by_cases he : hddIID = iid
          · cases detach <;> simp [he]
          · simp [he]

theorem attachmentLoop_counts (hddIID : UUID) (machine : IMachine)
    (atts : List (Option IMediumAttachment)) :
    ∀ d : Nat,
      (attachmentLoop hddIID machine atts d).1 = d + atts.countP (detaches hddIID)
        ∧ Call.DeleteStorage ∉ (attachmentLoop hddIID machine atts d).2
        ∧ (0 < atts.countP (detaches hddIID) →
            Call.SaveSettings machine.id ∈ (attachmentLoop hddIID machine atts d).2) := by
  induction atts with
  | nil => intro d; simp [attachmentLoop]
  | cons att rest ih =>
    intro d
    have hs := attachmentStep_counts hddIID machine att d
    have hr := ih (attachmentStep hddIID machine att d).1
    simp only [attachmentLoop, List.countP_cons, List.mem_append]
    refine ⟨?_, ?_, ?_⟩
    · rw [hr.1, hs.1]; omega
    · rintro (h | h)
      · exact hs.2.1 h
      · exact hr.2.1 h
    · intro hpos
      by_cases hatt : detaches hddIID att = true
      · exact Or.inl (hs.2.2 hatt)
      · simp only [hatt, Bool.false_eq_true, if_false, Nat.add_zero] at hpos
        exact Or.inr (hr.2.2 hpos)

theorem machineStep_stops (w : VBoxWorld) (hddIID : UUID) (machine : IMachine) (d : Nat)
    (hs : stopsScan w machine = true) :
    machineStep w hddIID machine d
      = (true, d, [Call.GetMachine machine.id,
                   Call.virReportError virErrorNumber.VIR_ERR_NO_DOMAIN
                     "no domain with matching uuid"]) := by
  unfold stopsScan at hs
  simp [machineStep, hs]

theorem machineStep_counts (w : VBoxWorld) (hddIID : UUID) (machine : IMachine) (d : Nat)
    (hs : stopsScan w machine = false) :
    (machineStep w hddIID machine d).1 = false
      ∧ (machineStep w hddIID machine d).2.1 = d + detachedOn hddIID machine
      ∧ Call.DeleteStorage ∉ (machineStep w hddIID machine d).2.2
      ∧ Call.SessionOpen machine.id ∈ (machineStep w hddIID machine d).2.2
      ∧ (detachedFrom w hddIID machine = true →
          Call.SaveSettings machine.id ∈ (machineStep w hddIID machine d).2.2) := by
  have hs' : (w.getMachineForSession && !machine.GetMachine) = false := hs
  have hloop := attachmentLoop_counts hddIID machine machine.attachments d
  unfold machineStep detachedOn detachedFrom detachCount
  simp only [hs', hs, Bool.false_eq_true, if_false]
  cases ho : machine.Open with
  | false => cases w.getMachineForSession <;> simp
  | true =>
    cases hg : machine.SessionGetMachine with
    | false => cases w.getMachineForSession <;> simp
    | true =>
      simp only [Bool.not_true, Bool.false_eq_true, if_false, Bool.and_self, if_true,
        Bool.not_false, Bool.true_and, decide_eq_true_eq]
      refine ⟨trivial, hloop.1, ?_, ?_, ?_⟩
      · have := hloop.2.1
        cases w.getMachineForSession <;> simp [this]
      · simp
      · intro hpos
        have := hloop.2.2 hpos
        simp [this]

theorem machineLoop_counts (w : VBoxWorld) (hddIID : UUID) (ms : List IMachine) :
    ∀ d : Nat, (machineLoop w hddIID ms d).1 = d + detachedTotal w hddIID ms
      ∧ Call.DeleteStorage ∉ (machineLoop w hddIID ms d).2 := by
  induction ms with
  | nil => intro d; simp [machineLoop, detachedTotal, scanned]
  | cons m rest ih =>
    intro d
    cases hs : stopsScan w m with
    | true =>
      simp [machineLoop, machineStep_stops w hddIID m d hs, detachedTotal, scanned,
        List.takeWhile_cons, hs]
    | false =>
      have hm := machineStep_counts w hddIID m d hs
      have hr := ih (machineStep w hddIID m d).2.1
      simp only [machineLoop, hm.1, Bool.false_eq_true, if_false, List.mem_append]
      refine ⟨?_, ?_⟩
      · rw [hr.1, hm.2.1]
        simp only [detachedTotal, scanned, List.takeWhile_cons, hs, Bool.not_false, if_true,
          List.map_cons, List.sum_cons]
        omega
      · rintro (h | h)
        · exact hm.2.2.1 h
        · exact hr.2 h

theorem machineLoop_evidence (w : VBoxWorld) (hddIID : UUID) (ms : List IMachine) :
    ∀ d : Nat, (∀ x ∈ ms, stopsScan w x = false) →
      ∀ m ∈ ms, Call.SessionOpen m.id ∈ (machineLoop w hddIID ms d).2
        ∧ (detachedFrom w hddIID m = true →
            Call.SaveSettings m.id ∈ (machineLoop w hddIID ms d).2) := by
  induction ms with
  | nil => intro d _ m hm; cases hm
  | cons x rest ih =>
    intro d hall m hm
    have hx := machineStep_counts w hddIID x d (hall x (List.mem_cons_self _ _))
    have hr := ih (machineStep w hddIID x d).2.1
      (fun y hy => hall y (List.mem_cons_of_mem _ hy))
    simp only [machineLoop, hx.1, Bool.false_eq_true, if_false, List.mem_append]
    rcases List.mem_cons.1 hm with rfl | hin
    · exact ⟨Or.inl hx.2.2.2.1, fun hd => Or.inl (hx.2.2.2.2 hd)⟩
    · exact ⟨Or.inr (hr m hin).1, fun hd => Or.inr ((hr m hin).2 hd)⟩

theorem detachedTotal_le (w : VBoxWorld) (hddIID : UUID) (ms : List IMachine)
    (hone : ∀ m ∈ ms, detachCount hddIID m ≤ 1) :
    detachedTotal w hddIID ms ≤ ms.length
      ∧ (detachedTotal w hddIID ms = ms.length ↔ ∀ m ∈ ms, detachedFrom w hddIID m = true) := by
  induction ms with
  | nil => simp [detachedTotal, scanned]
  | cons m rest ih =>
    have hr := ih (fun x hx => hone x (List.mem_cons_of_mem _ hx))
    have hm := hone m (List.mem_cons_self _ _)
    cases hs : stopsScan w m with
    | true =>
      have h0 : detachedTotal w hddIID (m :: rest) = 0 := by
        simp [detachedTotal, scanned, List.takeWhile_cons, hs]
      have hf : detachedFrom w hddIID m = false := by simp [detachedFrom, hs]
      rw [h0]
      refine ⟨Nat.zero_le _, ?_⟩
      constructor
      · intro h; simp at h
      · intro h
        have := h m (List.mem_cons_self _ _)
        rw [hf] at this
        cases this
    | false =>
      have hsum : detachedTotal w hddIID (m :: rest)
          = detachedOn hddIID m + detachedTotal w hddIID rest := by
        simp [detachedTotal, scanned, List.takeWhile_cons, hs]
      have hon : detachedOn hddIID m ≤ 1
          ∧ (detachedOn hddIID m = 1 ↔ detachedFrom w hddIID m = true) := by
        unfold detachedOn detachedFrom
        cases machine_open : m.Open <;> cases machine_got : m.SessionGetMachine
        all_goals simp [hs]
        omega
      rw [hsum, List.length_cons]
      refine ⟨by omega, ?_⟩
      constructor
      · intro h
        have h1 : detachedOn hddIID m = 1 := by omega
        have h2 : detachedTotal w hddIID rest = rest.length := by omega
        intro x hx
        rcases List.mem_cons.1 hx with rfl | hin
        · exact hon.2.1 h1
        · exact hr.2.1 h2 x hin
      · intro h
        have h1 := hon.2.2 (h m (List.mem_cons_self _ _))
        have h2 := hr.2.2 (fun x hx => h x (List.mem_cons_of_mem _ hx))
        omega

/-- Counterexample to claim C11 as stated, in both directions.  With the machine ids
`[twiceMachine, busyMachine]` the disk is detached twice from the first machine, the session of
the second cannot be opened, the counter equals the number of machine ids and `DeleteStorage` is
called although nothing was detached from the second machine.  With the machine ids
`[twiceMachine]` the disk is detached from every listed machine, the counter is 2 against one
machine id, and `DeleteStorage` is not called. -/
theorem counter_is_not_per_machine :
    (Call.DeleteStorage
          ∈ (vboxStorageVolDelete (worldWith [twiceMachine, busyMachine]) diskVol 0).2
        ∧ (diskUsedBy [twiceMachine, busyMachine]).machineIds ≠ []
        ∧ busyMachine ∈ (diskUsedBy [twiceMachine, busyMachine]).machineIds
        ∧ detachedFrom (worldWith [twiceMachine, busyMachine]) diskUUID busyMachine = false
        ∧ Call.SessionGetMachine busyMachine.id
            ∉ (vboxStorageVolDelete (worldWith [twiceMachine, busyMachine]) diskVol 0).2
        ∧ Call.SaveSettings busyMachine.id
            ∉ (vboxStorageVolDelete (worldWith [twiceMachine, busyMachine]) diskVol 0).2)
      ∧ ((∀ m ∈ (diskUsedBy [twiceMachine]).machineIds,
            detachedFrom (worldWith [twiceMachine]) diskUUID m = true)
        ∧ Call.SaveSettings twiceMachine.id
            ∈ (vboxStorageVolDelete (worldWith [twiceMachine]) diskVol 0).2
        ∧ Call.DeleteStorage ∉ (vboxStorageVolDelete (worldWith [twiceMachine]) diskVol 0).2
        ∧ (vboxStorageVolDelete (worldWith [twiceMachine]) diskVol 0).1 = -1) := by
  decide

/-- Claim C11, amended: when the disk is found and accessible, `DeleteStorage` is called
exactly when the test on the counter passes: the number of machine ids is 0, or it equals the
number of attachments holding the disk that were detached on the machines scanned (both as
32-bit values).  When there are fewer than `2 ^ 32` machine ids and no machine has more than
one attachment holding the disk whose detach succeeds, this is exactly: the machine-id list is
empty or the disk was detached from every machine in it; and then, in every run that calls
`DeleteStorage`, a session open and a `SaveSettings` after a successful detach were made for
every machine id in the list. -/
theorem deleteStorage_decided_by_counter (w : VBoxWorld) (vol : virStorageVol) (flags : Nat)
    (uuid : UUID) (hardDisk : IHardDisk) (hobj : w.vboxObj = true)
    (hflags : virCheckFlags 0 flags = true) (hkey : w.virUUIDParse vol.key = some uuid)
    (hdisk : w.GetHardDiskByIID uuid = some hardDisk)
    (hstate : hardDisk.GetState ≠ MediaState.MediaState_Inaccessible) :
    (Call.DeleteStorage ∈ (vboxStorageVolDelete w vol flags).2 ↔
        hardDisk.machineIds.length % 2 ^ 32 = 0
          ∨ hardDisk.machineIds.length % 2 ^ 32
              = detachedTotal w uuid hardDisk.machineIds % 2 ^ 32)
      ∧ (hardDisk.machineIds.length < 2 ^ 32 →
          (∀ m ∈ hardDisk.machineIds, detachCount uuid m ≤ 1) →
          (Call.DeleteStorage ∈ (vboxStorageVolDelete w vol flags).2 ↔
              hardDisk.machineIds = []
                ∨ ∀ m ∈ hardDisk.machineIds, detachedFrom w uuid m = true)
            ∧ (Call.DeleteStorage ∈ (vboxStorageVolDelete w vol flags).2 →
                ∀ m ∈ hardDisk.machineIds,
                  Call.SessionOpen m.id ∈ (vboxStorageVolDelete w vol flags).2
                    ∧ Call.SaveSettings m.id ∈ (vboxStorageVolDelete w vol flags).2)) := by
  have hcount := machineLoop_counts w uuid hardDisk.machineIds 0
  have hdereg : (machineLoop w uuid hardDisk.machineIds 0).1
      = detachedTotal w uuid hardDisk.machineIds := by
    rw [hcount.1]; omega
  have hcall : Call.DeleteStorage ∈ (vboxStorageVolDelete w vol flags).2 ↔
      hardDisk.machineIds.length % 2 ^ 32 = 0
        ∨ hardDisk.machineIds.length % 2 ^ 32
            = detachedTotal w uuid hardDisk.machineIds % 2 ^ 32 := by
    rw [delete_run w vol flags uuid hardDisk hobj hflags hkey hdisk hstate, hdereg]
    split
    · rename_i hcond
      have hmem : ∀ tail : List Call, Call.DeleteStorage ∈ tail →
          Call.DeleteStorage ∈ [Call.GetHardDiskByIID uuid]
            ++ (machineLoop w uuid hardDisk.machineIds 0).2 ++ tail :=
        fun tail h => List.mem_append_right _ h
      split
      · exact ⟨fun _ => hcond, fun _ => hmem _ (List.mem_cons_self _ _)⟩
      · exact ⟨fun _ => hcond, fun _ => hmem _ (List.mem_cons_self _ _)⟩
    · rename_i hcond
      refine ⟨fun h => ?_, fun h => absurd h hcond⟩
      simp only [List.singleton_append, List.mem_cons, reduceCtorEq, false_or] at h
      exact absurd h hcount.2
  refine ⟨hcall, ?_⟩
  intro hlen hone
  have hbound := detachedTotal_le w uuid hardDisk.machineIds hone
  have hiff : Call.DeleteStorage ∈ (vboxStorageVolDelete w vol flags).2 ↔
      hardDisk.machineIds = []
        ∨ ∀ m ∈ hardDisk.machineIds, detachedFrom w uuid m = true := by
    rw [hcall, Nat.mod_eq_of_lt hlen, Nat.mod_eq_of_lt (lt_of_le_of_lt hbound.1 hlen)]
    constructor
    · rintro (h | h)
      · exact Or.inl (List.length_eq_zero.1 h)
      · exact Or.inr (hbound.2.1 h.symm)
    · rintro (h | h)
      · exact Or.inl (List.length_eq_zero.2 h)
      · exact Or.inr (hbound.2.2 h).symm
  refine ⟨hiff, ?_⟩
  intro hdel m hm
  have hall : ∀ x ∈ hardDisk.machineIds, detachedFrom w uuid x = true := by
    rcases hiff.1 hdel with h | h
    · intro x hx; rw [h] at hx; cases hx
    · exact h
  have hscan : ∀ x ∈ hardDisk.machineIds, stopsScan w x = false := by
    intro x hx
    have := hall x hx
    unfold detachedFrom at this
    cases hsx : stopsScan w x with
    | false => rfl
    | true => simp [hsx] at this
  have hev := machineLoop_evidence w uuid hardDisk.machineIds 0 hscan m hm
  obtain ⟨tail, htrace, -, -⟩ :=
    delete_trace w vol flags uuid hardDisk hobj hflags hkey hdisk hstate
  rw [htrace]
  exact ⟨List.mem_append_left _ (List.mem_append_right _ hev.1),
    List.mem_append_left _ (List.mem_append_right _ (hev.2 (hall m hm)))⟩

/-- Witness of claim C11, amended: the disk is used by one machine that holds it once, behind
a NULL item; it is detached there and `DeleteStorage` is called. -/
theorem deleteStorage_decided_by_counter_witness :
    Call.DeleteStorage ∈ (vboxStorageVolDelete (worldWith [goodMachine]) diskVol 0).2
      ∧ Call.SessionOpen goodMachine.id
          ∈ (vboxStorageVolDelete (worldWith [goodMachine]) diskVol 0).2
      ∧ Call.SaveSettings goodMachine.id
          ∈ (vboxStorageVolDelete (worldWith [goodMachine]) diskVol 0).2 := by
  have t := (deleteStorage_decided_by_counter (worldWith [goodMachine]) diskVol 0 diskUUID
    (diskUsedBy [goodMachine]) rfl (by decide) (by decide) (by decide) (by decide)).2
    (by decide) (by decide)
  have hdel := t.1.2 (Or.inr (by decide))
  exact ⟨hdel, t.2 hdel goodMachine (List.mem_cons_self _ _)⟩

end VBox
